import Mathlib

/-!
Verification development for the MicroPython Meowbit framebuffer module
(`extmod/modframebuf.c`).

The C module exposes a `FrameBuffer` object over a caller-supplied byte
buffer viewed in one of seven pixel formats, with drawing primitives
(fill, fill_rect, pixel, hline, vline, rect, line, blit, scroll, text,
circle, traingle) plus BMP/GIF loaders.

This file is a shallow embedding of that code:

* byte buffers are `List Nat` (each element one byte, well-formedness
  `< 256` carried as a hypothesis where needed);
* machine integers are `Nat` / `Int` with explicit truncation (`% 256`,
  `% 65536`, `% 2^32`) at the points where the C code stores into
  `uint8_t` / `uint16_t` / `uint32_t` fields;
* the target platform is the Meowbit (STM32F4, little-endian ARM), so a
  16-bit store into the byte buffer places the low-order byte first;
* the drawing primitives are also modelled at the access level: each
  primitive emits the list of pixel-coordinate accesses (setpixel /
  getpixel calls and format-level fill_rect dispatches) it performs,
  exactly following the C control flow; C loops whose termination
  depends on run-time data are modelled with explicit fuel.
-/

/-- Format constants from `modframebuf.c`:
`FRAMEBUF_MVLSB = 0`, `FRAMEBUF_RGB565 = 1`, `FRAMEBUF_GS2_HMSB = 5`,
`FRAMEBUF_GS4_HMSB = 2`, `FRAMEBUF_PL8 = 6`, `FRAMEBUF_MHLSB = 3`,
`FRAMEBUF_MHMSB = 4`. -/
def FRAMEBUF_MVLSB : Nat := 0

/-- RGB565 format id. -/
def FRAMEBUF_RGB565 : Nat := 1

/-- GS2_HMSB format id. -/
def FRAMEBUF_GS2_HMSB : Nat := 5

/-- GS4_HMSB format id. -/
def FRAMEBUF_GS4_HMSB : Nat := 2

/-- PL8 format id. -/
def FRAMEBUF_PL8 : Nat := 6

/-- MONO_HLSB format id. -/
def FRAMEBUF_MHLSB : Nat := 3

/-- MONO_HMSB format id. -/
def FRAMEBUF_MHMSB : Nat := 4

/-- Geometry of a `mp_obj_framebuf_t`: `width`, `height`, `stride` are
`uint16_t` fields, `format` is a `uint8_t` field.  The byte buffer is kept
separate (the C object holds a pointer). -/
structure FB where
  width : Nat
  height : Nat
  stride : Nat
  format : Nat
deriving DecidableEq, Repr

/-- Declared byte length of a framebuffer, from `framebuf_get_buffer`:
`stride * height * (format == FRAMEBUF_RGB565 ? 2 : 1)`. -/
def declLen (fb : FB) : Nat :=
  fb.stride * fb.height * (if fb.format = FRAMEBUF_RGB565 then 2 else 1)

/-- Data-model invariants of a framebuffer (spec section 3): `stride ≥ width`,
stride alignment per format (8 pixels for the monochrome formats, 4 for
GS2_HMSB, 2 for GS4_HMSB), and the format id is one of the seven constants.
Construction (`framebuf_make_new`) establishes the alignment and format
membership; `stride ≥ width` is the declared invariant on callers. -/
def FB.valid (fb : FB) : Prop :=
  fb.width ≤ fb.stride ∧
  (fb.format = FRAMEBUF_MVLSB ∨ fb.format = FRAMEBUF_RGB565 ∨
   fb.format = FRAMEBUF_GS2_HMSB ∨ fb.format = FRAMEBUF_GS4_HMSB ∨
   fb.format = FRAMEBUF_PL8 ∨ fb.format = FRAMEBUF_MHLSB ∨
   fb.format = FRAMEBUF_MHMSB) ∧
  ((fb.format = FRAMEBUF_MHLSB ∨ fb.format = FRAMEBUF_MHMSB) → fb.stride % 8 = 0) ∧
  (fb.format = FRAMEBUF_GS2_HMSB → fb.stride % 4 = 0) ∧
  (fb.format = FRAMEBUF_GS4_HMSB → fb.stride % 2 = 0)

instance (fb : FB) : Decidable fb.valid := by
  unfold FB.valid; infer_instance

/-- Read byte `i` of a buffer (out-of-range reads yield 0; all verified
accesses are proved in range). -/
def getByte (buf : List Nat) (i : Nat) : Nat := buf.getD i 0

/-- Functions for MHLSB and MHMSB (`mono_horiz_setpixel`):
`index = (x + y*stride) >> 3`,
`offset = format == FRAMEBUF_MHMSB ? x & 7 : 7 - (x & 7)`,
`buf[index] = (buf[index] & ~(1 << offset)) | ((col != 0) << offset)`.
With bytes `< 256`, `b & ~(1 << offset)` equals `b &&& (255 ^^^ (1 <<< offset))`. -/
def mono_horiz_setpixel (format stride : Nat) (buf : List Nat) (x y col : Nat) : List Nat :=
  let index := (x + y * stride) >>> 3
  let offset := if format = FRAMEBUF_MHMSB then x % 8 else 7 - x % 8
  buf.set index ((getByte buf index &&& (255 ^^^ (1 <<< offset))) |||
    ((if col ≠ 0 then 1 else 0) <<< offset))

/-- `mono_horiz_getpixel`: `(buf[(x + y*stride) >> 3] >> offset) & 1`. -/
def mono_horiz_getpixel (format stride : Nat) (buf : List Nat) (x y : Nat) : Nat :=
  let index := (x + y * stride) >>> 3
  let offset := if format = FRAMEBUF_MHMSB then x % 8 else 7 - x % 8
  (getByte buf index >>> offset) &&& 1

/-- Functions for MVLSB (`mvlsb_setpixel`):
`index = (y >> 3)*stride + x`, `offset = y & 7`. -/
def mvlsb_setpixel (stride : Nat) (buf : List Nat) (x y col : Nat) : List Nat :=
  let index := (y >>> 3) * stride + x
  let offset := y % 8
  buf.set index ((getByte buf index &&& (255 ^^^ (1 <<< offset))) |||
    ((if col ≠ 0 then 1 else 0) <<< offset))

/-- `mvlsb_getpixel`: `(buf[(y >> 3)*stride + x] >> (y & 7)) & 1`. -/
def mvlsb_getpixel (stride : Nat) (buf : List Nat) (x y : Nat) : Nat :=
  (getByte buf ((y >>> 3) * stride + x) >>> (y % 8)) &&& 1

/-- RGB565 colour packing, `#define COL0/COL` in the source:
`p = ((r >> 3) << 11) | ((g >> 2) << 5) | (b >> 3)` with
`r = (c >> 16) & 0xff`, `g = (c >> 8) & 0xff`, `b = c & 0xff`. -/
def COL (c : Nat) : Nat :=
  ((((c >>> 16) &&& 255) >>> 3) <<< 11) |||
  ((((c >>> 8) &&& 255) >>> 2) <<< 5) |||
  ((c &&& 255) >>> 3)

/-- The 16-bit word actually stored for a colour by `rgb565_setpixel` /
`rgb565_fill_rect`: `((col & 0xff) << 8) | ((col >> 8) & 0xff)` applied to
`COL(col)` (byte-swapped packed value). -/
def rgb565_stored (c : Nat) : Nat :=
  ((COL c &&& 255) <<< 8) ||| ((COL c >>> 8) &&& 255)

/-- `rgb565_setpixel`: stores the byte-swapped packed colour as a `uint16_t`
at element `x + y*stride`.  On the little-endian target the low-order byte
of the stored word lands at byte offset `2*(x + y*stride)` and the
high-order byte right after it. -/
def rgb565_setpixel (stride : Nat) (buf : List Nat) (x y col : Nat) : List Nat :=
  let color := rgb565_stored col
  let e := x + y * stride
  (buf.set (2 * e) (color % 256)).set (2 * e + 1) (color / 256)

/-- `rgb565_getpixel`: reads the `uint16_t` at element `x + y*stride`
(little-endian byte order on the target). -/
def rgb565_getpixel (stride : Nat) (buf : List Nat) (x y : Nat) : Nat :=
  let e := x + y * stride
  getByte buf (2 * e) + (getByte buf (2 * e + 1)) * 256

/-- `gs2_hmsb_setpixel`: byte `(x + y*stride) >> 2`, `shift = (x & 3) << 1`,
`mask = 3 << shift`, `*pixel = ((col & 3) << shift) | (*pixel & ~mask)`. -/
def gs2_hmsb_setpixel (stride : Nat) (buf : List Nat) (x y col : Nat) : List Nat :=
  let index := (x + y * stride) >>> 2
  let shift := (x % 4) <<< 1
  buf.set index (((col &&& 3) <<< shift) ||| (getByte buf index &&& (255 ^^^ (3 <<< shift))))

/-- `gs2_hmsb_getpixel`: `(buf[(x + y*stride) >> 2] >> shift) & 3`. -/
def gs2_hmsb_getpixel (stride : Nat) (buf : List Nat) (x y : Nat) : Nat :=
  let index := (x + y * stride) >>> 2
  let shift := (x % 4) <<< 1
  (getByte buf index >>> shift) &&& 3

/-- `gs4_hmsb_setpixel`: byte `(x + y*stride) >> 1`; odd `x` writes the low
nibble (`(col & 0x0f) | (*pixel & 0xf0)`), even `x` the high nibble
(`((uint8_t)col << 4) | (*pixel & 0x0f)`; the `uint8_t` store truncates,
hence the `% 256`). -/
def gs4_hmsb_setpixel (stride : Nat) (buf : List Nat) (x y col : Nat) : List Nat :=
  let index := (x + y * stride) >>> 1
  if x % 2 = 1 then
    buf.set index ((col &&& 15) ||| (getByte buf index &&& 240))
  else
    buf.set index ((((col % 256) <<< 4) % 256) ||| (getByte buf index &&& 15))

/-- `gs4_hmsb_getpixel`: odd `x` reads the low nibble, even `x` the high one. -/
def gs4_hmsb_getpixel (stride : Nat) (buf : List Nat) (x y : Nat) : Nat :=
  if x % 2 = 1 then
    getByte buf ((x + y * stride) >>> 1) &&& 15
  else
    getByte buf ((x + y * stride) >>> 1) >>> 4

/-- `gs8_setpixel` (used for PL8): byte `x + y*stride` gets `col & 0xff`. -/
def gs8_setpixel (stride : Nat) (buf : List Nat) (x y col : Nat) : List Nat :=
  buf.set (x + y * stride) (col &&& 255)

/-- `gs8_getpixel`. -/
def gs8_getpixel (stride : Nat) (buf : List Nat) (x y : Nat) : Nat :=
  getByte buf (x + y * stride)

/-- Format dispatch for `setpixel` (the `formats[]` table).  The default
branch is unreachable for constructed framebuffers (the constructor rejects
any other format id). -/
def setpixel (format stride : Nat) (buf : List Nat) (x y col : Nat) : List Nat :=
  if format = FRAMEBUF_MVLSB then mvlsb_setpixel stride buf x y col
  else if format = FRAMEBUF_RGB565 then rgb565_setpixel stride buf x y col
  else if format = FRAMEBUF_GS2_HMSB then gs2_hmsb_setpixel stride buf x y col
  else if format = FRAMEBUF_GS4_HMSB then gs4_hmsb_setpixel stride buf x y col
  else if format = FRAMEBUF_PL8 then gs8_setpixel stride buf x y col
  else if format = FRAMEBUF_MHLSB ∨ format = FRAMEBUF_MHMSB then
    mono_horiz_setpixel format stride buf x y col
  else buf

/-- Format dispatch for `getpixel`. -/
def getpixel (format stride : Nat) (buf : List Nat) (x y : Nat) : Nat :=
  if format = FRAMEBUF_MVLSB then mvlsb_getpixel stride buf x y
  else if format = FRAMEBUF_RGB565 then rgb565_getpixel stride buf x y
  else if format = FRAMEBUF_GS2_HMSB then gs2_hmsb_getpixel stride buf x y
  else if format = FRAMEBUF_GS4_HMSB then gs4_hmsb_getpixel stride buf x y
  else if format = FRAMEBUF_PL8 then gs8_getpixel stride buf x y
  else if format = FRAMEBUF_MHLSB ∨ format = FRAMEBUF_MHMSB then
    mono_horiz_getpixel format stride buf x y
  else 0

/-- A pixel-level access performed by a drawing primitive: a `setpixel`
call, a `getpixel` call, or a dispatch into the format-specific
`fill_rect`.  Coordinates are the C `int` arguments. -/
inductive Access where
  | setp (x y : Int)
  | getp (x y : Int)
  | rect (x y w h : Int)
deriving DecidableEq, Repr

/-- An access is in bounds for a `width × height` plane when its pixel
coordinates (for `rect`: the whole rectangle, degenerate rectangles
allowed) lie in `[0, width) × [0, height)`. -/
def AccOK (fb : FB) : Access → Prop
  | Access.setp x y => 0 ≤ x ∧ x < fb.width ∧ 0 ≤ y ∧ y < fb.height
  | Access.getp x y => 0 ≤ x ∧ x < fb.width ∧ 0 ≤ y ∧ y < fb.height
  | Access.rect x y w h => 0 ≤ x ∧ 0 ≤ y ∧ 0 ≤ w ∧ 0 ≤ h ∧
      x + w ≤ fb.width ∧ y + h ≤ fb.height

instance (fb : FB) (a : Access) : Decidable (AccOK fb a) := by
  cases a <;> (unfold AccOK; infer_instance)

/-- All accesses of a list are in bounds. -/
def AccsOK (fb : FB) (l : List Access) : Prop := ∀ a ∈ l, AccOK fb a

/-- Byte indices touched by a single `setpixel`/`getpixel` at nonnegative
coordinates, per format (the address arithmetic of the format functions
above; for RGB565 the two bytes of the halfword). -/
def pixelBytes (format stride : Nat) (x y : Nat) : List Nat :=
  if format = FRAMEBUF_MVLSB then [(y >>> 3) * stride + x]
  else if format = FRAMEBUF_RGB565 then
    [2 * (x + y * stride), 2 * (x + y * stride) + 1]
  else if format = FRAMEBUF_GS2_HMSB then [(x + y * stride) >>> 2]
  else if format = FRAMEBUF_GS4_HMSB then [(x + y * stride) >>> 1]
  else if format = FRAMEBUF_PL8 then [x + y * stride]
  else if format = FRAMEBUF_MHLSB ∨ format = FRAMEBUF_MHMSB then
    [(x + y * stride) >>> 3]
  else []

/-- Byte indices written by `mono_horiz_fill_rect`: for each of the `w`
columns `x+i`, the bytes `((x+i) >> 3) + (y+j)*advance` for the `h` rows,
where `advance = stride >> 3`. -/
def mono_horiz_fill_writes (stride x y w h : Nat) : List Nat :=
  (List.range w).flatMap fun i =>
    (List.range h).map fun j => ((x + i) >>> 3) + (y + j) * (stride >>> 3)

/-- Byte indices written by `mvlsb_fill_rect`: for each of the `h` rows
`y+j`, the bytes `((y+j) >> 3)*stride + x + i` for the `w` columns. -/
def mvlsb_fill_writes (stride x y w h : Nat) : List Nat :=
  (List.range h).flatMap fun j =>
    (List.range w).map fun i => ((y + j) >>> 3) * stride + x + i

/-- Byte indices written by `rgb565_fill_rect`: the halfword pointer starts
at element `x + y*stride`, writes `w` elements per row and then advances by
`stride - w`, i.e. element `x + i + (y + j)*stride` (two bytes each). -/
def rgb565_fill_writes (stride x y w h : Nat) : List Nat :=
  (List.range h).flatMap fun j =>
    (List.range w).flatMap fun i =>
      [2 * (x + i + (y + j) * stride), 2 * (x + i + (y + j) * stride) + 1]

/-- Byte indices written by `gs2_hmsb_fill_rect` (a per-pixel double loop
over `gs2_hmsb_setpixel`). -/
def gs2_hmsb_fill_writes (stride x y w h : Nat) : List Nat :=
  (List.range w).flatMap fun i =>
    (List.range h).map fun j => ((x + i) + (y + j) * stride) >>> 2

/-- One row of `gs4_hmsb_fill_rect` starting with byte pointer `p`:
optional leading low-nibble byte when `x` is odd, a `memset` of `ww >> 1`
bytes, and an optional trailing high-nibble byte.  Returns the written
byte indices and the pointer value after the row (before the
`pixel_count_till_next_line` advance). -/
def gs4_row (p w : Nat) (oddx : Bool) : List Nat × Nat :=
  let s1 : List Nat × Nat × Nat :=
    if oddx ∧ 0 < w then ([p], p + 1, w - 1) else ([], p, w)
  let ws1 := s1.1
  let p1 := s1.2.1
  let ww := s1.2.2
  let ws2 := (List.range (ww >>> 1)).map fun i => p1 + i
  let p2 := p1 + (ww >>> 1)
  let s3 : List Nat × Nat :=
    if ww % 2 = 1 then ([p2], if oddx then p2 else p2 + 1) else ([], p2)
  (ws1 ++ ws2 ++ s3.1, s3.2)

/-- The `while (h--)` loop of `gs4_hmsb_fill_rect`: after each row the
pointer advances by `pixel_count_till_next_line = (stride - w) >> 1`. -/
def gs4_fill_aux (stride w : Nat) (oddx : Bool) (p : Nat) : Nat → List Nat
  | 0 => []
  | h + 1 =>
    (gs4_row p w oddx).1 ++
      gs4_fill_aux stride w oddx ((gs4_row p w oddx).2 + ((stride - w) >>> 1)) h

/-- Byte indices written by `gs4_hmsb_fill_rect`: pointer starts at
`(x + y*stride) >> 1`, `odd_x = (x % 2 == 1)`. -/
def gs4_hmsb_fill_writes (stride x y w h : Nat) : List Nat :=
  gs4_fill_aux stride w (x % 2 = 1) ((x + y * stride) >>> 1) h

/-- Byte indices written by `gs8_fill_rect`: per row a `memset` of `w`
bytes starting at `x + y*stride`, pointer advancing by `stride`. -/
def gs8_fill_writes (stride x y w h : Nat) : List Nat :=
  (List.range h).flatMap fun j =>
    (List.range w).map fun i => x + (y + j) * stride + i

/-- Format dispatch for the byte indices written by the format-specific
`fill_rect`. -/
def fill_writes (format stride x y w h : Nat) : List Nat :=
  if format = FRAMEBUF_MVLSB then mvlsb_fill_writes stride x y w h
  else if format = FRAMEBUF_RGB565 then rgb565_fill_writes stride x y w h
  else if format = FRAMEBUF_GS2_HMSB then gs2_hmsb_fill_writes stride x y w h
  else if format = FRAMEBUF_GS4_HMSB then gs4_hmsb_fill_writes stride x y w h
  else if format = FRAMEBUF_PL8 then gs8_fill_writes stride x y w h
  else if format = FRAMEBUF_MHLSB ∨ format = FRAMEBUF_MHMSB then
    mono_horiz_fill_writes stride x y w h
  else []

/-- Byte indices touched by an access (used with nonnegative, in-bounds
coordinates; `Int.toNat` is the identity there). -/
def accBytes (fb : FB) : Access → List Nat
  | Access.setp x y => pixelBytes fb.format fb.stride x.toNat y.toNat
  | Access.getp x y => pixelBytes fb.format fb.stride x.toNat y.toNat
  | Access.rect x y w h =>
      fill_writes fb.format fb.stride x.toNat y.toNat w.toNat h.toNat

/-- The clipped-rectangle router, `fill_rect` in `modframebuf.c`:
either a no-op (empty access list) or one dispatch into the format
`fill_rect` with the clipped rectangle. -/
def fill_rect (fb : FB) (x y w h : Int) : List Access :=
  if h < 1 ∨ w < 1 ∨ x + w ≤ 0 ∨ y + h ≤ 0 ∨
     y ≥ (fb.height : Int) ∨ x ≥ (fb.width : Int) then []
  else
    let xend := min (fb.width : Int) (x + w)
    let yend := min (fb.height : Int) (y + h)
    let x' := max x 0
    let y' := max y 0
    [Access.rect x' y' (xend - x') (yend - y')]

/-- `framebuf_fill`: calls the format `fill_rect` directly with the full
plane `(0, 0, width, height)`, bypassing the router. -/
def framebuf_fill (fb : FB) : List Access :=
  [Access.rect 0 0 fb.width fb.height]

/-- `framebuf_fill_rect` (the bound method): routes through the clip
routine. -/
def framebuf_fill_rect (fb : FB) (x y w h : Int) : List Access :=
  fill_rect fb x y w h

/-- The write path of `framebuf_pixel`: `setpixel` only when
`0 <= x < width` and `0 <= y < height`. -/
def framebuf_pixel_set (fb : FB) (x y : Int) : List Access :=
  if 0 ≤ x ∧ x < fb.width ∧ 0 ≤ y ∧ y < fb.height then [Access.setp x y] else []

/-- The read path of `framebuf_pixel`. -/
def framebuf_pixel_get (fb : FB) (x y : Int) : List Access :=
  if 0 ≤ x ∧ x < fb.width ∧ 0 ≤ y ∧ y < fb.height then [Access.getp x y] else []

/-- `framebuf_hline`: `fill_rect(self, x, y, w, 1, col)`. -/
def framebuf_hline (fb : FB) (x y w : Int) : List Access :=
  fill_rect fb x y w 1

/-- `framebuf_vline`: `fill_rect(self, x, y, 1, h, col)`. -/
def framebuf_vline (fb : FB) (x y h : Int) : List Access :=
  fill_rect fb x y 1 h

/-- `framebuf_rect`: four router calls for the outline. -/
def framebuf_rect (fb : FB) (x y w h : Int) : List Access :=
  fill_rect fb x y w 1 ++ fill_rect fb x (y + h - 1) w 1 ++
  fill_rect fb x y 1 h ++ fill_rect fb (x + w - 1) y 1 h

/-- One guarded plot of `drawLine`: in the steep branch the C code checks
`0 <= y1 < width && 0 <= x1 < height` and plots `(y1, x1)`; otherwise it
checks `0 <= x1 < width && 0 <= y1 < height` and plots `(x1, y1)`. -/
def drawLinePlot (fb : FB) (steep : Bool) (x1 y1 : Int) : List Access :=
  if steep then
    if 0 ≤ y1 ∧ y1 < fb.width ∧ 0 ≤ x1 ∧ x1 < fb.height then [Access.setp y1 x1] else []
  else
    if 0 ≤ x1 ∧ x1 < fb.width ∧ 0 ≤ y1 ∧ y1 < fb.height then [Access.setp x1 y1] else []

/-- The inner error-adjustment loop of `drawLine`:
`while (e >= 0) { y1 += sy; e -= 2*dx; }`, with explicit fuel (the C loop
terminates whenever `dx > 0`, which holds on every iteration of the outer
loop). -/
def bresAdjust (sy dx : Int) : Int → Int → Nat → Int × Int
  | y1, e, 0 => (y1, e)
  | y1, e, f + 1 => if e ≥ 0 then bresAdjust sy dx (y1 + sy) (e - 2 * dx) f else (y1, e)

/-- The outer loop of `drawLine`: runs `dx` times (counter `n = dx.toNat`),
plotting a guarded pixel, adjusting `(y1, e)`, then `x1 += sx; e += 2*dy`. -/
def drawLineAux (fb : FB) (steep : Bool) (sx sy dx dy : Int) (ifuel : Nat) :
    Int → Int → Int → Nat → List Access
  | _, _, _, 0 => []
  | x1, y1, e, n + 1 =>
    drawLinePlot fb steep x1 y1 ++
      (let p := bresAdjust sy dx y1 e ifuel
       drawLineAux fb steep sx sy dx dy ifuel (x1 + sx) p.1 (p.2 + 2 * dy) n)

/-- `drawLine` (used by `framebuf_line` and the triangle outline):
Bresenham with explicit signs and steep-axis swap; after the loop the
endpoint `(x2, y2)` is plotted under its own bounds check. -/
def drawLine (fb : FB) (x1 y1 x2 y2 : Int) (ifuel : Nat) : List Access :=
  let dx0 := x2 - x1
  let sdx : Int × Int := if dx0 > 0 then (dx0, 1) else (-dx0, -1)
  let dy0 := y2 - y1
  let sdy : Int × Int := if dy0 > 0 then (dy0, 1) else (-dy0, -1)
  let st : Int × Int × Int × Int × Int × Int × Bool :=
    if sdy.1 > sdx.1 then (y1, x1, sdy.1, sdx.1, sdy.2, sdx.2, true)
    else (x1, y1, sdx.1, sdy.1, sdx.2, sdy.2, false)
  let xs := st.1
  let ys := st.2.1
  let dx := st.2.2.1
  let dy := st.2.2.2.1
  let sx := st.2.2.2.2.1
  let sy := st.2.2.2.2.2.1
  let steep := st.2.2.2.2.2.2
  drawLineAux fb steep sx sy dx dy ifuel xs ys (2 * dy - dx) dx.toNat ++
    (if 0 ≤ x2 ∧ x2 < fb.width ∧ 0 ≤ y2 ∧ y2 < fb.height then [Access.setp x2 y2] else [])

/-- `framebuf_line`. -/
def framebuf_line (fb : FB) (x1 y1 x2 y2 : Int) (ifuel : Nat) : List Access :=
  drawLine fb x1 y1 x2 y2 ifuel

/-- The column loop of `framebuf_text`:
`for (y = y0; vline_data; vline_data >>= 1, y++)` plots `(x, y)` when the
low bit is set and `0 <= y < height`.  Terminates because `vline_data`
halves. -/
def textCol (fb : FB) (x : Int) (y : Int) (v : Nat) : List Access :=
  if h : v = 0 then []
  else
    (if v % 2 = 1 ∧ 0 ≤ y ∧ y < (fb.height : Int) then [Access.setp x y] else []) ++
      textCol fb x (y + 1) (v >>> 1)
termination_by v
decreasing_by simpa [Nat.shiftRight_one] using Nat.div_lt_self (Nat.pos_of_ne_zero h) one_lt_two

/-- One glyph of `framebuf_text`: 8 font columns, each advancing `x0` and
guarded by `0 <= x0 < width`; the glyph byte for column `j` is
`font[(chr - 32) * 8 + j]` (the `font_petme128_8x8` table, external to this
module, is abstracted as a function). -/
def textChar (fb : FB) (font : Nat → Nat) (chr : Nat) (x0 y0 : Int) : List Access :=
  (List.range 8).flatMap fun j =>
    if 0 ≤ x0 + j ∧ x0 + j < (fb.width : Int) then
      textCol fb (x0 + j) y0 (font ((chr - 32) * 8 + j))
    else []

/-- `framebuf_text`: characters outside `[32, 127]` are replaced by 127;
each character advances `x0` by 8 (one per column). -/
def framebuf_text (fb : FB) (font : Nat → Nat) : List Nat → Int → Int → List Access
  | [], _, _ => []
  | c :: rest, x0, y0 =>
    let chr := if c < 32 ∨ c > 127 then 127 else c
    textChar fb font chr x0 y0 ++ framebuf_text fb font rest (x0 + 8) y0

/-- One iteration record of the `framebuf_blit` double loop: the source
coordinates read, the destination coordinates, the colour read via
`getpixel`, and whether the guarded `setpixel` fired (`col != (uint32_t)key`). -/
structure BlitEv where
  sx : Int
  sy : Int
  dx : Int
  dy : Int
  col : Nat
  written : Bool
deriving DecidableEq, Repr

/-- The C `(uint32_t)key` conversion. -/
def keyU32 (key : Int) : Nat := (key % 4294967296).toNat

/-- `framebuf_blit`: out-of-bounds no-op guard, clip, then the row/column
loops reading `getpixel(source, cx1, y1)` and conditionally writing
`setpixel(self, cx0, y0, col)`. -/
def framebuf_blit (fb source : FB) (srcbuf : List Nat) (x y key : Int) : List BlitEv :=
  if x ≥ (fb.width : Int) ∨ y ≥ (fb.height : Int) ∨
     -x ≥ (source.width : Int) ∨ -y ≥ (source.height : Int) then []
  else
    let x0 := max 0 x
    let y0 := max 0 y
    let x1 := max 0 (-x)
    let y1 := max 0 (-y)
    let x0end := min (fb.width : Int) (x + source.width)
    let y0end := min (fb.height : Int) (y + source.height)
    (List.range (y0end - y0).toNat).flatMap fun (j : Nat) =>
      (List.range (x0end - x0).toNat).map fun (i : Nat) =>
        let col := getpixel source.format source.stride srcbuf
          (x1 + (i : Int)).toNat (y1 + (j : Int)).toNat
        { sx := x1 + (i : Int), sy := y1 + (j : Int),
          dx := x0 + (i : Int), dy := y0 + (j : Int),
          col := col, written := col ≠ keyU32 key : BlitEv }

/-- Accesses performed by `framebuf_blit` on the source framebuffer. -/
def blitSrcAccs (fb source : FB) (srcbuf : List Nat) (x y key : Int) : List Access :=
  (framebuf_blit fb source srcbuf x y key).map fun ev => Access.getp ev.sx ev.sy

/-- Accesses performed by `framebuf_blit` on the destination framebuffer
(only the writes that actually fire). -/
def blitDstAccs (fb source : FB) (srcbuf : List Nat) (x y key : Int) : List Access :=
  (framebuf_blit fb source srcbuf x y key).filterMap fun ev =>
    if ev.written then some (Access.setp ev.dx ev.dy) else none

/-- A C `for (v = start; v != endv; v += step)` loop header, with fuel:
returns the list of visited values, or `none` if the index never hits
`endv` within the fuel (the C loop would keep running). -/
def cForLoop (step : Int) : Int → Int → Nat → Option (List Int)
  | start, endv, 0 => if start = endv then some [] else none
  | start, endv, f + 1 =>
    if start = endv then some []
    else (cForLoop step (start + step) endv f).map (start :: ·)

/-- `framebuf_scroll`: direction setup exactly as in the source, then the
two nested `!=`-terminated loops; each inner iteration reads
`getpixel(self, x - xstep, y - ystep)` and writes `setpixel(self, x, y)`.
The inner loop bounds do not depend on `y`, so its visit list is computed
once.  `none` models non-termination of the C loops. -/
def framebuf_scroll (fb : FB) (xstep ystep : Int) (fuel : Nat) : Option (List Access) :=
  let xp : Int × Int × Int :=
    if xstep < 0 then (0, fb.width + xstep, 1) else (fb.width - 1, xstep - 1, -1)
  let sx := xp.1
  let xend := xp.2.1
  let dx := xp.2.2
  let yp : Int × Int × Int :=
    if ystep < 0 then (0, fb.height + ystep, 1) else (fb.height - 1, ystep - 1, -1)
  let sy := yp.1
  let yend := yp.2.1
  let dy := yp.2.2
  match cForLoop dy sy yend fuel, cForLoop dx sx xend fuel with
  | some ys, some xs =>
    some (ys.flatMap fun y => xs.flatMap fun x =>
      [Access.getp (x - xstep) (y - ystep), Access.setp x y])
  | _, _ => none

/-- The midpoint-circle loop of `framebuf_circle` (`while (x < y)`), with
the `f`/`ddF_x`/`ddF_y` updates of the source.  The filled variant emits
four router spans per step; the outline emits eight raw `setpixel` calls
with no bounds check. -/
def circleLoop (fb : FB) (x0 y0 : Int) (fill : Bool) (f ddFx ddFy x y : Int) :
    List Access :=
  if hxy : x < y then
    let st : Int × Int × Int :=
      if f ≥ 0 then (y - 1, ddFy + 2, f + (ddFy + 2)) else (y, ddFy, f)
    let y' := st.1
    let ddFy' := st.2.1
    let f1 := st.2.2
    let x' := x + 1
    let ddFx' := ddFx + 2
    let f2 := f1 + ddFx'
    (if fill then
      fill_rect fb (x0 + x') (y0 - y') 1 (2 * y' + 1) ++
      fill_rect fb (x0 + y') (y0 - x') 1 (2 * x' + 1) ++
      fill_rect fb (x0 - x') (y0 - y') 1 (2 * y' + 1) ++
      fill_rect fb (x0 - y') (y0 - x') 1 (2 * x' + 1)
    else
      [Access.setp (x0 + x') (y0 + y'), Access.setp (x0 - x') (y0 + y'),
       Access.setp (x0 + x') (y0 - y'), Access.setp (x0 - x') (y0 - y'),
       Access.setp (x0 + y') (y0 + x'), Access.setp (x0 - y') (y0 + x'),
       Access.setp (x0 + y') (y0 - x'), Access.setp (x0 - y') (y0 - x')]) ++
      circleLoop fb x0 y0 fill f2 ddFx' ddFy' x' y'
  else []
termination_by (y - x).toNat
decreasing_by
  split <;> simp <;> omega

/-- `framebuf_circle`: optional central vertical stroke through the router
when filled, then the midpoint loop starting from
`f = 1 - r`, `ddF_x = 1`, `ddF_y = -2r`, `x = 0`, `y = r`. -/
def framebuf_circle (fb : FB) (x0 y0 r : Int) (fill : Bool) : List Access :=
  (if fill then fill_rect fb x0 (y0 - r) 1 (2 * r + 1) else []) ++
    circleLoop fb x0 y0 fill (1 - r) 1 (-2 * r) 0 r

/-- Conversion of a C `int` value to `int16_t` (two's-complement wrap,
what the hardware does).  The triangle code stores intermediates in
`int16_t` variables, and its `swap` macro routes values through an
`int16_t` temporary. -/
def w16 (n : Int) : Int := (n + 32768) % 65536 - 32768

/-- First scanline loop of the filled `framebuf_traingle`:
`for (; y < last + 1; y++)` emitting one router span per scanline, with
`a`/`b` recomputed from the accumulated `sa`/`sb` (all `int16_t`, C `/`
truncates toward zero).  Returns the emitted accesses and the final `y`.
Fuel models the data-dependent iteration count. -/
def traingleLoop1 (fb : FB) (x0 dx01 dy01 dx02 dy02 last : Int) :
    Int → Int → Int → Nat → List Access × Int
  | y, _, _, 0 => ([], y)
  | y, sa, sb, fuel + 1 =>
    if y < last + 1 then
      let a := w16 (x0 + Int.tdiv sa dy01)
      let b := w16 (x0 + Int.tdiv sb dy02)
      let sa' := w16 (sa + dx01)
      let sb' := w16 (sb + dx02)
      let ab : Int × Int := if a > b then (b, w16 a) else (a, b)
      let rest := traingleLoop1 fb x0 dx01 dy01 dx02 dy02 last (w16 (y + 1)) sa' sb' fuel
      (fill_rect fb ab.1 y (ab.2 - ab.1 + 1) 1 ++ rest.1, rest.2)
    else ([], y)

/-- Second scanline loop of the filled `framebuf_traingle`:
`while (y <= y2)`. -/
def traingleLoop2 (fb : FB) (x0 x1 dx12 dy12 dx02 dy02 y2 : Int) :
    Int → Int → Int → Nat → List Access
  | _, _, _, 0 => []
  | y, sa, sb, fuel + 1 =>
    if y ≤ y2 then
      let a := w16 (x1 + Int.tdiv sa dy12)
      let b := w16 (x0 + Int.tdiv sb dy02)
      let sa' := w16 (sa + dx12)
      let sb' := w16 (sb + dx02)
      let ab : Int × Int := if a > b then (b, w16 a) else (a, b)
      fill_rect fb ab.1 y (ab.2 - ab.1 + 1) 1 ++
        traingleLoop2 fb x0 x1 dx12 dy12 dx02 dy02 y2 (w16 (y + 1)) sa' sb' fuel
    else []

/-- The three conditional vertex swaps of the filled `framebuf_traingle`,
sorting by `y` (each C `swap` routes one operand through an `int16_t`
temporary, truncating it).  Returns `(y0, y1, y2, x0, x1, x2)`. -/
def traingleSorted (x0i y0i x1i y1i x2i y2i : Int) :
    Int × Int × Int × Int × Int × Int :=
  let s1 : Int × Int × Int × Int :=
    if y0i > y1i then (y1i, w16 y0i, x1i, w16 x0i) else (y0i, y1i, x0i, x1i)
  let s2 : Int × Int × Int × Int :=
    if s1.2.1 > y2i then (s1.2.1, w16 y2i, s1.2.2.2, w16 x2i)
    else (y2i, s1.2.1, x2i, s1.2.2.2)
  let s3 : Int × Int × Int × Int :=
    if s1.1 > s2.2.1 then (s2.2.1, w16 s1.1, s2.2.2.2, w16 s1.2.2.1)
    else (s1.1, s2.2.1, s1.2.2.1, s2.2.2.2)
  (s3.1, s3.2.1, s2.1, s3.2.2.1, s3.2.2.2, s2.2.2.1)

/-- The colinear (`y0 == y2`) case of the filled triangle: the bounding
horizontal segment through the router (`a`, `b` are `int16_t`). -/
def traingleColinear (fb : FB) (y0 x0 x1 x2 : Int) : List Access :=
  let a0 := w16 x0
  let ab1 : Int × Int :=
    if x1 < a0 then (w16 x1, a0) else if x1 > a0 then (a0, w16 x1) else (a0, a0)
  let ab2 : Int × Int :=
    if x2 < ab1.1 then (w16 x2, ab1.2)
    else if x2 > ab1.2 then (ab1.1, w16 x2) else ab1
  fill_rect fb ab2.1 y0 (ab2.2 - ab2.1 + 1) 1

/-- The two-half-sweep of the filled triangle on sorted vertices: edge
steps in `int16_t`, `dy` clamped away from zero, first loop up to `last`,
then the second loop up to `y2`. -/
def traingleSweep (fb : FB) (y0 y1 y2 x0 x1 x2 : Int) (fuel : Nat) : List Access :=
  let dx01 := w16 (x1 - x0)
  let dy01i := w16 (y1 - y0)
  let dx02 := w16 (x2 - x0)
  let dy02i := w16 (y2 - y0)
  let dx12 := w16 (x2 - x1)
  let dy12i := w16 (y2 - y1)
  let dy01 := if dy01i = 0 then 1 else dy01i
  let dy02 := if dy02i = 0 then 1 else dy02i
  let dy12 := if dy12i = 0 then 1 else dy12i
  let last := if y1 = y2 then w16 y1 else w16 (y1 - 1)
  let l1 := traingleLoop1 fb x0 dx01 dy01 dx02 dy02 last (w16 y0) 0 0 fuel
  let y := l1.2
  let sa := w16 (dx12 * (y - y1))
  let sb := w16 (dx02 * (y - y0))
  l1.1 ++ traingleLoop2 fb x0 x1 dx12 dy12 dx02 dy02 y2 y sa sb fuel

/-- The filled triangle on sorted vertices: colinear special case or the
two-half sweep. -/
def traingleFilled (fb : FB) (y0 y1 y2 x0 x1 x2 : Int) (fuel : Nat) : List Access :=
  if y0 = y2 then traingleColinear fb y0 x0 x1 x2
  else traingleSweep fb y0 y1 y2 x0 x1 x2 fuel

/-- `framebuf_traingle` (name as exposed by the module).  The filled
variant sorts the vertices by `y`, then fills; the outline variant is
three `drawLine` calls. -/
def framebuf_traingle (fb : FB) (x0i y0i x1i y1i x2i y2i : Int) (fill : Bool)
    (fuel ifuel : Nat) : List Access :=
  if fill then
    let t := traingleSorted x0i y0i x1i y1i x2i y2i
    traingleFilled fb t.1 t.2.1 t.2.2.1 t.2.2.2.1 t.2.2.2.2.1 t.2.2.2.2.2 fuel
  else
    drawLine fb x0i y0i x1i y1i ifuel ++ drawLine fb x1i y1i x2i y2i ifuel ++
      drawLine fb x2i y2i x0i y0i ifuel

/-- Round `s` up to the next multiple of 8: `(s + 7) & ~7` for the values
in range (`s < 2^16`, so no high bits are lost before the `uint16_t`
store, which is the separate `% 65536` below). -/
def align8 (s : Nat) : Nat := (s + 7) / 8 * 8

/-- Round up to a multiple of 4: `(s + 3) & ~3`. -/
def align4 (s : Nat) : Nat := (s + 3) / 4 * 4

/-- Round up to a multiple of 2: `(s + 1) & ~1`. -/
def align2 (s : Nat) : Nat := (s + 1) / 2 * 2

/-- `framebuf_make_new`: stores `width`, `height` and the requested stride
(defaulting to the stored width) into `uint16_t` fields and the format into
a `uint8_t` field — each store truncating the `mp_int_t` argument — then
switches on the stored format: the monochrome horizontal formats align the
stride to 8, GS2_HMSB to 4, GS4_HMSB to 2, MVLSB / RGB565 / PL8 leave it
unchanged, and any other stored format value raises `ValueError`
(modelled as `none`).  `strideReq` is the stored (truncated) requested
stride before alignment. -/
def strideReq (w : Int) (strideIn : Option Int) : Nat :=
  match strideIn with
  | some s => (s % 65536).toNat
  | none => (w % 65536).toNat

/-- The stride alignment switch of `framebuf_make_new` continues below. -/
def framebuf_make_new (w h fmt : Int) (strideIn : Option Int) : Option FB :=
  let width := (w % 65536).toNat
  let height := (h % 65536).toNat
  let format := (fmt % 256).toNat
  let s0 := strideReq w strideIn
  if format = FRAMEBUF_MVLSB ∨ format = FRAMEBUF_RGB565 then
    some ⟨width, height, s0, format⟩
  else if format = FRAMEBUF_MHLSB ∨ format = FRAMEBUF_MHMSB then
    some ⟨width, height, align8 s0 % 65536, format⟩
  else if format = FRAMEBUF_GS2_HMSB then
    some ⟨width, height, align4 s0 % 65536, format⟩
  else if format = FRAMEBUF_GS4_HMSB then
    some ⟨width, height, align2 s0 % 65536, format⟩
  else if format = FRAMEBUF_PL8 then
    some ⟨width, height, s0, format⟩
  else none

/-- A drawing action emitted by the GIF frame renderer `gif_dispimage`:
a horizontal fill (through the clipped router) or a single `setpixel`,
with the resolved colour. -/
inductive GAct where
  | gfill (x y w h : Int) (col : Nat)
  | gset (x y : Int) (col : Nat)
deriving DecidableEq, Repr

/-- Colour-table lookup `*(pTrans + i)` (only reached with `i ≥ 0`). -/
def palGet (pal : List Nat) (i : Int) : Nat := pal.getD i.toNat 0

/-- The per-row pixel loop of `gif_dispimage`
(`for (XPos = x0; XPos <= XEnd; XPos++)`), with the stream of decoded
palette indices for the row abstracted as a list (`gif_getnextbyte` /
decompression-stack pops).  State: current `XPos`, run counter `Cnt`,
previous index `OldIndex` (initially `-1`).  A run of equal indices is
flushed as one horizontal fill when a different index arrives; note that
the transparent-run branch under `Disposal == 2` paints
`*(pTrans + OldIndex)` (source line 1014) — the palette entry of the
transparent index — not `bkcolor`.  The epilogue after the loop
(`XPos = XEnd + 1`) flushes the final run, using `bkcolor` for a
transparent final run under `Disposal == 2`. -/
def gif_rowAux (pal : List Nat) (bkcolor : Nat) (transparency : Int)
    (disposal : Nat) (ypos : Int) : List Int → Int → Int → Int → List GAct
  | [], xpos, cnt, old =>
    if old ≠ transparency ∨ disposal = 2 then
      let colorIndex := if old ≠ transparency then palGet pal old else bkcolor
      if cnt ≠ 0 then [GAct.gfill (xpos - cnt - 1) ypos (cnt + 1) 1 colorIndex]
      else [GAct.gset (xpos - 1) ypos colorIndex]
    else []
  | idx :: rest, xpos, cnt, old =>
    if idx = old then gif_rowAux pal bkcolor transparency disposal ypos rest (xpos + 1) (cnt + 1) old
    else
      (if cnt ≠ 0 then
        (if old ≠ transparency then
          [GAct.gfill (xpos - cnt - 1) ypos (cnt + 1) 1 (palGet pal old)]
        else if disposal = 2 then
          [GAct.gfill (xpos - cnt - 1) ypos (cnt + 1) 1 (palGet pal old)]
        else [])
      else
        (if 0 ≤ old then
          (if old ≠ transparency then [GAct.gset (xpos - 1) ypos (palGet pal old)]
           else if disposal = 2 then [GAct.gset (xpos - 1) ypos bkcolor]
           else [])
        else [])) ++
        gif_rowAux pal bkcolor transparency disposal ypos rest (xpos + 1) 0 idx

/-- One row of `gif_dispimage` at row `ypos` starting at column `x0`:
processes the row's palette indices with `Cnt = 0`, `OldIndex = -1`.
`bkcolor = colortbl[gifLSD.bkcindex]` is resolved by the caller. -/
def gif_disprow (pal : List Nat) (bkcolor : Nat) (transparency : Int)
    (disposal : Nat) (x0 ypos : Int) (indices : List Int) : List GAct :=
  gif_rowAux pal bkcolor transparency disposal ypos indices x0 0 (-1)

/-- The inter-frame delay of `framebuf_loadgif`:
`if (delay) dtime = delay; else dtime = 10;` — the initial value of the
`uint16_t` countdown `dtime`. -/
def gif_dtime (delay : Nat) : Nat := if delay ≠ 0 then delay else 10

/-- The sleep loop `while (dtime-- && gifdecoding) mp_hal_delay_ms(10);`
of `framebuf_loadgif`: counts the `mp_hal_delay_ms(10)` calls.  `dtime--`
is tested first (post-decrement), then the `gifdecoding` flag, sampled as
a sequence over iteration numbers. -/
def gif_sleepCalls (flag : Nat → Bool) : Nat → Nat → Nat
  | 0, _ => 0
  | d + 1, i => if flag i then 1 + gif_sleepCalls flag d (i + 1) else 0

/-- The write path of `framebuf_pixel` acting on the buffer: `setpixel`
only when `0 <= x < width` and `0 <= y < height`, otherwise the buffer is
untouched. -/
def framebuf_pixel_setb (fb : FB) (buf : List Nat) (x y : Int) (col : Nat) : List Nat :=
  if 0 ≤ x ∧ x < fb.width ∧ 0 ≤ y ∧ y < fb.height then
    setpixel fb.format fb.stride buf x.toNat y.toNat col
  else buf

/-- The read path of `framebuf_pixel`: `getpixel` when in bounds, the C
code returns `None` otherwise. -/
def framebuf_pixel_getb (fb : FB) (buf : List Nat) (x y : Int) : Option Nat :=
  if 0 ≤ x ∧ x < fb.width ∧ 0 ≤ y ∧ y < fb.height then
    some (getpixel fb.format fb.stride buf x.toNat y.toNat)
  else none

/-- Reading back the byte just written. -/
theorem getByte_set_self (buf : List Nat) (i v : Nat) (h : i < buf.length) :
    getByte (buf.set i v) i = v := by
  unfold getByte
  rw [List.getD_eq_getElem _ _ (by simpa using h)]
  exact List.getElem_set_self _

/-- Writing one byte leaves the others unchanged. -/
theorem getByte_set_ne (buf : List Nat) (i j v : Nat) (h : i ≠ j) :
    getByte (buf.set i v) j = getByte buf j := by
  unfold getByte
  rw [List.getD_eq_getElem?_getD, List.getD_eq_getElem?_getD, List.getElem?_set_ne h]

/-- Bytes of a well-formed buffer are below 256 (out-of-range reads give 0). -/
theorem getByte_lt (buf : List Nat) (i : Nat) (hwf : ∀ b ∈ buf, b < 256) :
    getByte buf i < 256 := by
  unfold getByte
  rcases lt_or_ge i buf.length with h | h
  · rw [List.getD_eq_getElem _ _ h]
    exact hwf _ (List.getElem_mem h)
  · rw [List.getD_eq_getElem?_getD, List.getElem?_eq_none (by simpa using h)]
    norm_num

/-- Read-modify-write roundtrip for a `k`-bit field at bit offset `s` of a
byte: clearing the field with `& ~mask` (written `&&& (255 ^^^ mask)` for
bytes), OR-ing in the new value and reading the field back returns the new
value. -/
theorem rmw_get (old c s k : Nat) (hold : old < 256) (hc : c < 2 ^ k)
    (hsk : s + k ≤ 8) :
    (((old &&& (255 ^^^ ((2 ^ k - 1) <<< s))) ||| (c <<< s)) >>> s) &&& (2 ^ k - 1) = c := by
  apply Nat.eq_of_testBit_eq
  intro i
  have h255 : (255 : Nat) = 2 ^ 8 - 1 := by norm_num
  rcases lt_or_ge i k with hik | hik
  · have h8 : s + i < 8 := by omega
    simp only [Nat.testBit_land, Nat.testBit_lor, Nat.testBit_shiftRight,
      Nat.testBit_shiftLeft, Nat.testBit_xor, h255, Nat.testBit_two_pow_sub_one,
      ge_iff_le, Nat.le_add_right, Nat.add_sub_cancel_left]
    simp [hik, h8]
  · have hc' : c.testBit i = false := Nat.testBit_eq_false_of_lt (lt_of_lt_of_le hc (Nat.pow_le_pow_right (by norm_num) hik))
    simp only [Nat.testBit_land, Nat.testBit_two_pow_sub_one]
    simp [hik, hc']

/-- `mono_horiz_setpixel` followed by `mono_horiz_getpixel` at the same
coordinate returns the stored bit `col != 0`. -/
theorem mono_horiz_get_set (format stride x y col : Nat) (buf : List Nat)
    (hlen : (x + y * stride) >>> 3 < buf.length) (hwf : ∀ b ∈ buf, b < 256) :
    mono_horiz_getpixel format stride (mono_horiz_setpixel format stride buf x y col) x y
      = if col ≠ 0 then 1 else 0 := by
  unfold mono_horiz_getpixel mono_horiz_setpixel
  dsimp only
  rw [getByte_set_self _ _ _ (by simpa using hlen)]
  have h1 : (if col ≠ 0 then 1 else 0) < 2 ^ 1 := by split <;> norm_num
  have := rmw_get (getByte buf ((x + y * stride) >>> 3)) (if col ≠ 0 then 1 else 0)
    (if format = FRAMEBUF_MHMSB then x % 8 else 7 - x % 8) 1
    (getByte_lt _ _ hwf) h1 (by split <;> omega)
  simpa using this

/-- `mvlsb_setpixel` followed by `mvlsb_getpixel`. -/
theorem mvlsb_get_set (stride x y col : Nat) (buf : List Nat)
    (hlen : (y >>> 3) * stride + x < buf.length) (hwf : ∀ b ∈ buf, b < 256) :
    mvlsb_getpixel stride (mvlsb_setpixel stride buf x y col) x y
      = if col ≠ 0 then 1 else 0 := by
  unfold mvlsb_getpixel mvlsb_setpixel
  rw [getByte_set_self _ _ _ (by simpa using hlen)]
  have h1 : (if col ≠ 0 then 1 else 0) < 2 ^ 1 := by split <;> norm_num
  have := rmw_get (getByte buf ((y >>> 3) * stride + x)) (if col ≠ 0 then 1 else 0)
    (y % 8) 1 (getByte_lt _ _ hwf) h1 (by omega)
  simpa using this

/-- `gs2_hmsb_setpixel` followed by `gs2_hmsb_getpixel` returns `col & 3`. -/
theorem gs2_hmsb_get_set (stride x y col : Nat) (buf : List Nat)
    (hlen : (x + y * stride) >>> 2 < buf.length) (hwf : ∀ b ∈ buf, b < 256) :
    gs2_hmsb_getpixel stride (gs2_hmsb_setpixel stride buf x y col) x y = col &&& 3 := by
  unfold gs2_hmsb_getpixel gs2_hmsb_setpixel
  dsimp only
  rw [getByte_set_self _ _ _ (by simpa using hlen)]
  have h1 : col &&& 3 < 2 ^ 2 := Nat.and_lt_two_pow _ (by norm_num)
  have h2 : (x % 4) <<< 1 + 2 ≤ 8 := by
    have := Nat.mod_lt x (show 0 < 4 by norm_num)
    simp only [Nat.shiftLeft_eq]
    omega
  have := rmw_get (getByte buf ((x + y * stride) >>> 2)) (col &&& 3)
    ((x % 4) <<< 1) 2 (getByte_lt _ _ hwf) h1 h2
  simpa [show (2:Nat)^2 - 1 = 3 by norm_num, Nat.lor_comm] using this

/-- `gs4_hmsb_setpixel` followed by `gs4_hmsb_getpixel` returns the stored
nibble (`col` itself when `col < 16`). -/
theorem gs4_hmsb_get_set (stride x y col : Nat) (buf : List Nat)
    (hlen : (x + y * stride) >>> 1 < buf.length) (hcol : col < 16) :
    gs4_hmsb_getpixel stride (gs4_hmsb_setpixel stride buf x y col) x y = col := by
  unfold gs4_hmsb_getpixel gs4_hmsb_setpixel
  dsimp only
  rcases Nat.eq_zero_or_pos (x % 2) with hx | hx
  · have hx' : ¬ (x % 2 = 1) := by omega
    simp only [hx', if_false]
    rw [getByte_set_self _ _ _ (by simpa using hlen)]
    have hsh : (col % 256) <<< 4 % 256 = col <<< 4 := by
      rw [Nat.mod_eq_of_lt (show col < 256 by omega)]
      rw [Nat.mod_eq_of_lt (show col <<< 4 < 256 by rw [Nat.shiftLeft_eq]; omega)]
    rw [hsh]
    apply Nat.eq_of_testBit_eq
    intro i
    have h15 : (15 : Nat) = 2 ^ 4 - 1 := by norm_num
    simp only [Nat.testBit_shiftRight, Nat.testBit_lor, Nat.testBit_shiftLeft,
      Nat.testBit_land, h15, Nat.testBit_two_pow_sub_one]
    have : ¬ (4 + i < 4) := by omega
    simp [this]
  · have hx' : x % 2 = 1 := by omega
    simp only [hx', if_true]
    rw [getByte_set_self _ _ _ (by simpa using hlen)]
    apply Nat.eq_of_testBit_eq
    intro i
    have h15 : (15 : Nat) = 2 ^ 4 - 1 := by norm_num
    have h240 : (240 : Nat) = (2 ^ 4 - 1) <<< 4 := by decide
    rcases lt_or_ge i 4 with hi | hi
    · simp only [Nat.testBit_land, Nat.testBit_lor, h15, h240, Nat.testBit_shiftLeft,
        Nat.testBit_two_pow_sub_one]
      have : ¬ (4 ≤ i) := by omega
      simp [hi, this]
    · have hcb : col.testBit i = false :=
        Nat.testBit_eq_false_of_lt (lt_of_lt_of_le hcol (by
          calc (16 : Nat) = 2 ^ 4 := by norm_num
          _ ≤ 2 ^ i := Nat.pow_le_pow_right (by norm_num) hi))
      simp only [Nat.testBit_land, Nat.testBit_lor, h15, Nat.testBit_two_pow_sub_one]
      have : ¬ (i < 4) := by omega
      simp [this, hcb]

/-- `gs8_setpixel` followed by `gs8_getpixel` returns `col & 0xff`. -/
theorem gs8_get_set (stride x y col : Nat) (buf : List Nat)
    (hlen : x + y * stride < buf.length) :
    gs8_getpixel stride (gs8_setpixel stride buf x y col) x y = col &&& 255 := by
  unfold gs8_getpixel gs8_setpixel
  exact getByte_set_self _ _ _ hlen

/-- The stored RGB565 word fits in 16 bits. -/
theorem rgb565_stored_lt (c : Nat) : rgb565_stored c < 65536 := by
  unfold rgb565_stored
  have h1 : (COL c &&& 255) <<< 8 < 2 ^ 16 := by
    have h := Nat.and_lt_two_pow (COL c) (show (255 : Nat) < 2 ^ 8 by norm_num)
    simpa using Nat.shiftLeft_lt h
  have h2 : (COL c >>> 8) &&& 255 < 2 ^ 16 :=
    lt_of_lt_of_le (Nat.and_lt_two_pow _ (show (255 : Nat) < 2 ^ 8 by norm_num))
      (by norm_num)
  have := Nat.or_lt_two_pow h1 h2
  simpa using this

/-- `rgb565_setpixel` followed by `rgb565_getpixel` returns the stored
byte-swapped 16-bit word `rgb565_stored col` (not the caller's colour). -/
theorem rgb565_get_set (stride x y col : Nat) (buf : List Nat)
    (hlen : 2 * (x + y * stride) + 1 < buf.length) :
    rgb565_getpixel stride (rgb565_setpixel stride buf x y col) x y
      = rgb565_stored col := by
  unfold rgb565_getpixel rgb565_setpixel
  dsimp only
  rw [getByte_set_self _ _ _ (by simpa using hlen)]
  rw [getByte_set_ne _ _ _ _ (by omega)]
  rw [getByte_set_self _ _ _ (by omega)]
  have := rgb565_stored_lt col
  omega

/-- Linear pixel index bound: `x + y*stride < stride*height` for in-bounds
coordinates with `width ≤ stride`. -/
theorem linIdx_le (S W H x y : Nat) (hW : W ≤ S) (hx : x < W) (hy : y < H) :
    x + y * S + 1 ≤ S * H := by
  have hS1 : 1 ≤ S := by omega
  have h2 : y * S ≤ (H - 1) * S := Nat.mul_le_mul_right S (by omega)
  have h3 : (H - 1) * S = H * S - S := by rw [Nat.sub_one_mul]
  have h4 : S ≤ H * S := Nat.le_mul_of_pos_left S (by omega)
  have h5 : H * S = S * H := Nat.mul_comm H S
  omega

/-- Row-major byte index bound for MVLSB: `(y >> 3)*stride + x < stride*height`. -/
theorem colIdx_le (S W H x y : Nat) (hW : W ≤ S) (hx : x < W) (hy : y < H) :
    (y >>> 3) * S + x + 1 ≤ S * H := by
  have h0 : y >>> 3 ≤ y := by
    rw [Nat.shiftRight_eq_div_pow]
    exact Nat.div_le_self _ _
  have hS1 : 1 ≤ S := by omega
  have h2 : (y >>> 3) * S ≤ (H - 1) * S := Nat.mul_le_mul_right S (by omega)
  have h3 : (H - 1) * S = H * S - S := by rw [Nat.sub_one_mul]
  have h4 : S ≤ H * S := Nat.le_mul_of_pos_left S (by omega)
  have h5 : H * S = S * H := Nat.mul_comm H S
  omega

/-- Every byte touched by a single in-bounds `setpixel`/`getpixel` lies
inside the declared buffer range. -/
theorem pixelBytes_lt (fb : FB) (hv : fb.valid) (x y : Nat)
    (hx : x < fb.width) (hy : y < fb.height) :
    ∀ i ∈ pixelBytes fb.format fb.stride x y, i < declLen fb := by
  obtain ⟨hWS, hfmt, -, -, -⟩ := hv
  have hlin := linIdx_le fb.stride fb.width fb.height x y hWS hx hy
  have hdiv8 : (x + y * fb.stride) >>> 3 ≤ x + y * fb.stride := by
    rw [Nat.shiftRight_eq_div_pow]; exact Nat.div_le_self _ _
  have hdiv4 : (x + y * fb.stride) >>> 2 ≤ x + y * fb.stride := by
    rw [Nat.shiftRight_eq_div_pow]; exact Nat.div_le_self _ _
  have hdiv2 : (x + y * fb.stride) >>> 1 ≤ x + y * fb.stride := by
    rw [Nat.shiftRight_eq_div_pow]; exact Nat.div_le_self _ _
  have hcol := colIdx_le fb.stride fb.width fb.height x y hWS hx hy
  rcases hfmt with h | h | h | h | h | h | h <;>
    simp only [pixelBytes, declLen, h, FRAMEBUF_MVLSB, FRAMEBUF_RGB565,
      FRAMEBUF_GS2_HMSB, FRAMEBUF_GS4_HMSB, FRAMEBUF_PL8, FRAMEBUF_MHLSB,
      FRAMEBUF_MHMSB] <;>
    norm_num <;> omega

/-- After one GS4 row plus the `(stride - w) >> 1` advance, the pointer has
moved exactly half a stride (stride even by construction). -/
theorem gs4_row_advance (p w S x : Nat) (hw : x + w ≤ S) (hS2 : S % 2 = 0) :
    (gs4_row p w (decide (x % 2 = 1))).2 + ((S - w) >>> 1) = p + S / 2 := by
  unfold gs4_row
  dsimp only
  by_cases hx : x % 2 = 1 <;> simp only [hx, decide_eq_true_eq, decide_eq_false_iff_not] <;>
    split_ifs <;> simp_all [Nat.shiftRight_one] <;> omega

/-- Every byte written by one GS4 row lies strictly below the next row
start. -/
theorem gs4_row_writes_lt (p w S x : Nat) (hw : x + w ≤ S) (hS2 : S % 2 = 0)
    (hw1 : 1 ≤ w) :
    ∀ q ∈ (gs4_row p w (decide (x % 2 = 1))).1, q < p + S / 2 := by
  intro q hq
  unfold gs4_row at hq
  dsimp only at hq
  by_cases hx : x % 2 = 1 <;>
    simp only [hx, decide_eq_true_eq, decide_eq_false_iff_not] at hq <;>
    split_ifs at hq <;>
    simp_all [List.mem_append, List.mem_map, List.mem_range, Nat.shiftRight_one] <;>
    omega

/-- `gs4_fill_aux` with `w = 0` writes nothing. -/
theorem gs4_fill_aux_zero (S : Nat) (oddx : Bool) :
    ∀ (h p : Nat), gs4_fill_aux S 0 oddx p h = [] := by
  intro h
  induction h with
  | zero => intro p; rfl
  | succ n ih =>
    intro p
    simp [gs4_fill_aux, gs4_row, ih]

/-- All bytes written by the GS4 fill loop lie below `p + (stride/2) * h`. -/
theorem gs4_fill_aux_lt (S w x : Nat) (hw : x + w ≤ S) (hS2 : S % 2 = 0)
    (hw1 : 1 ≤ w) :
    ∀ (h p : Nat), ∀ q ∈ gs4_fill_aux S w (decide (x % 2 = 1)) p h,
      q < p + S / 2 * h := by
  intro h
  induction h with
  | zero => intro p q hq; simp [gs4_fill_aux] at hq
  | succ n ih =>
    intro p q hq
    have hmul : S / 2 * (n + 1) = S / 2 * n + S / 2 := by ring
    rcases List.mem_append.1 hq with hq1 | hq2
    · have := gs4_row_writes_lt p w S x hw hS2 hw1 q hq1
      omega
    · have hadv := gs4_row_advance p w S x hw hS2
      have := ih ((gs4_row p w (decide (x % 2 = 1))).2 + ((S - w) >>> 1)) q hq2
      omega

/-- Every byte written by `gs4_hmsb_fill_rect` on a clipped rectangle lies
inside the declared buffer range. -/
theorem gs4_hmsb_fill_writes_lt (S W H x y w h : Nat) (hW : W ≤ S)
    (hS2 : S % 2 = 0) (hxw : x + w ≤ W) (hyh : y + h ≤ H) :
    ∀ q ∈ gs4_hmsb_fill_writes S x y w h, q < S * H := by
  intro q hq
  unfold gs4_hmsb_fill_writes at hq
  rcases Nat.eq_zero_or_pos w with hw0 | hw1
  · subst hw0
    rw [gs4_fill_aux_zero] at hq
    simp at hq
  · rcases Nat.eq_zero_or_pos h with hh0 | hh1
    · subst hh0
      simp [gs4_fill_aux] at hq
    · have hq' := gs4_fill_aux_lt S w x (by omega) hS2 hw1 h ((x + y * S) >>> 1) q hq
      obtain ⟨s2, hs2⟩ : ∃ s2, S = 2 * s2 := ⟨S / 2, by omega⟩
      have hdiv : S / 2 = s2 := by omega
      have hp0 : (x + y * S) >>> 1 = x / 2 + y * s2 := by
        rw [Nat.shiftRight_one, hs2]
        have : x + y * (2 * s2) = x + 2 * (y * s2) := by ring
        rw [this]
        omega
      have hys : y * s2 + h * s2 = (y + h) * s2 := by ring
      have hle : (y + h) * s2 ≤ H * s2 := Nat.mul_le_mul_right s2 hyh
      have hSH : S * H = 2 * s2 * H := by rw [hs2]
      have hHs2 : H * s2 = s2 * H := Nat.mul_comm H s2
      have h2s2 : 2 * s2 * H = 2 * (s2 * H) := by ring
      have hx2 : x / 2 + 1 ≤ s2 := by omega
      have hmul2 : S / 2 * h = s2 * h := by rw [hdiv]
      have hsh : s2 * h = h * s2 := Nat.mul_comm s2 h
      have hH1 : 1 ≤ H := by omega
      have hs2H : s2 ≤ s2 * H := Nat.le_mul_of_pos_right s2 (by omega)
      omega

/-- Byte index bound for the mono horizontal fill walk. -/
theorem monoIdx_le (S W H x y : Nat) (hW : W ≤ S) (hx : x < W) (hy : y < H) :
    (x >>> 3) + y * (S >>> 3) + 1 ≤ S * H := by
  have h0 : x >>> 3 ≤ x := by
    rw [Nat.shiftRight_eq_div_pow]; exact Nat.div_le_self _ _
  have h1 : S >>> 3 ≤ S := by
    rw [Nat.shiftRight_eq_div_pow]; exact Nat.div_le_self _ _
  have h2 : y * (S >>> 3) ≤ (H - 1) * S := Nat.mul_le_mul (by omega) h1
  have h3 : (H - 1) * S = H * S - S := by rw [Nat.sub_one_mul]
  have h4 : S ≤ H * S := Nat.le_mul_of_pos_left S (by omega)
  have h5 : H * S = S * H := Nat.mul_comm H S
  omega

/-- Every byte written by the format-specific `fill_rect` on a clipped
rectangle (`x + w ≤ width`, `y + h ≤ height`) lies inside the declared
buffer range. -/
theorem fill_writes_lt (fb : FB) (hv : fb.valid) (x y w h : Nat)
    (hxw : x + w ≤ fb.width) (hyh : y + h ≤ fb.height) :
    ∀ i ∈ fill_writes fb.format fb.stride x y w h, i < declLen fb := by
  obtain ⟨hWS, hfmt, -, -, hal2⟩ := hv
  intro q hq
  rcases hfmt with hf | hf | hf | hf | hf | hf | hf
  · rw [hf] at hq
    simp only [fill_writes, FRAMEBUF_MVLSB, FRAMEBUF_RGB565, FRAMEBUF_GS2_HMSB,
      FRAMEBUF_GS4_HMSB, FRAMEBUF_PL8, FRAMEBUF_MHLSB, FRAMEBUF_MHMSB] at hq
    norm_num [mvlsb_fill_writes, List.mem_flatMap, List.mem_map, List.mem_range] at hq
    obtain ⟨j, hj, i, hi, rfl⟩ := hq
    have := colIdx_le fb.stride fb.width fb.height (x + i) (y + j) hWS (by omega) (by omega)
    simp only [declLen, hf, FRAMEBUF_MVLSB, FRAMEBUF_RGB565]
    norm_num
    omega
  · rw [hf] at hq
    simp only [fill_writes, FRAMEBUF_MVLSB, FRAMEBUF_RGB565, FRAMEBUF_GS2_HMSB,
      FRAMEBUF_GS4_HMSB, FRAMEBUF_PL8, FRAMEBUF_MHLSB, FRAMEBUF_MHMSB] at hq
    norm_num [rgb565_fill_writes, List.mem_flatMap, List.mem_range] at hq
    obtain ⟨j, hj, i, hi, hqe⟩ := hq
    have := linIdx_le fb.stride fb.width fb.height (x + i) (y + j) hWS (by omega) (by omega)
    simp only [declLen, hf, FRAMEBUF_RGB565]
    norm_num
    omega
  · rw [hf] at hq
    simp only [fill_writes, FRAMEBUF_MVLSB, FRAMEBUF_RGB565, FRAMEBUF_GS2_HMSB,
      FRAMEBUF_GS4_HMSB, FRAMEBUF_PL8, FRAMEBUF_MHLSB, FRAMEBUF_MHMSB] at hq
    norm_num [gs2_hmsb_fill_writes, List.mem_flatMap, List.mem_map, List.mem_range] at hq
    obtain ⟨i, hi, j, hj, rfl⟩ := hq
    have hlin := linIdx_le fb.stride fb.width fb.height (x + i) (y + j) hWS (by omega) (by omega)
    have hdd : (x + i + (y + j) * fb.stride) >>> 2 ≤ x + i + (y + j) * fb.stride := by
      rw [Nat.shiftRight_eq_div_pow]; exact Nat.div_le_self _ _
    simp only [declLen, hf, FRAMEBUF_GS2_HMSB, FRAMEBUF_RGB565]
    norm_num
    omega
  · rw [hf] at hq
    simp only [fill_writes, FRAMEBUF_MVLSB, FRAMEBUF_RGB565, FRAMEBUF_GS2_HMSB,
      FRAMEBUF_GS4_HMSB, FRAMEBUF_PL8, FRAMEBUF_MHLSB, FRAMEBUF_MHMSB] at hq
    norm_num at hq
    have hS2 : fb.stride % 2 = 0 := hal2 hf
    have := gs4_hmsb_fill_writes_lt fb.stride fb.width fb.height x y w h hWS hS2 hxw hyh q hq
    simp only [declLen, hf, FRAMEBUF_GS4_HMSB, FRAMEBUF_RGB565]
    norm_num
    omega
  · rw [hf] at hq
    simp only [fill_writes, FRAMEBUF_MVLSB, FRAMEBUF_RGB565, FRAMEBUF_GS2_HMSB,
      FRAMEBUF_GS4_HMSB, FRAMEBUF_PL8, FRAMEBUF_MHLSB, FRAMEBUF_MHMSB] at hq
    norm_num [gs8_fill_writes, List.mem_flatMap, List.mem_map, List.mem_range] at hq
    obtain ⟨j, hj, i, hi, rfl⟩ := hq
    have := linIdx_le fb.stride fb.width fb.height (x + i) (y + j) hWS (by omega) (by omega)
    simp only [declLen, hf, FRAMEBUF_PL8, FRAMEBUF_RGB565]
    norm_num
    omega
  · rw [hf] at hq
    simp only [fill_writes, FRAMEBUF_MVLSB, FRAMEBUF_RGB565, FRAMEBUF_GS2_HMSB,
      FRAMEBUF_GS4_HMSB, FRAMEBUF_PL8, FRAMEBUF_MHLSB, FRAMEBUF_MHMSB] at hq
    norm_num [mono_horiz_fill_writes, List.mem_flatMap, List.mem_map, List.mem_range] at hq
    obtain ⟨i, hi, j, hj, rfl⟩ := hq
    have := monoIdx_le fb.stride fb.width fb.height (x + i) (y + j) hWS (by omega) (by omega)
    simp only [declLen, hf, FRAMEBUF_MHLSB, FRAMEBUF_RGB565]
    norm_num
    omega
  · rw [hf] at hq
    simp only [fill_writes, FRAMEBUF_MVLSB, FRAMEBUF_RGB565, FRAMEBUF_GS2_HMSB,
      FRAMEBUF_GS4_HMSB, FRAMEBUF_PL8, FRAMEBUF_MHLSB, FRAMEBUF_MHMSB] at hq
    norm_num [mono_horiz_fill_writes, List.mem_flatMap, List.mem_map, List.mem_range] at hq
    obtain ⟨i, hi, j, hj, rfl⟩ := hq
    have := monoIdx_le fb.stride fb.width fb.height (x + i) (y + j) hWS (by omega) (by omega)
    simp only [declLen, hf, FRAMEBUF_MHMSB, FRAMEBUF_RGB565]
    norm_num
    omega

/-- Concatenation preserves in-bounds access lists. -/
theorem AccsOK_append (fb : FB) (l1 l2 : List Access) (h1 : AccsOK fb l1)
    (h2 : AccsOK fb l2) : AccsOK fb (l1 ++ l2) := by
  intro a ha
  rcases List.mem_append.1 ha with h | h
  · exact h1 a h
  · exact h2 a h

/-- The empty access list is in bounds. -/
theorem AccsOK_nil (fb : FB) : AccsOK fb [] := by
  intro a ha
  simp at ha

/-- The clip router only dispatches rectangles that lie entirely inside
the plane. -/
theorem fill_rect_ok (fb : FB) (x y w h : Int) : AccsOK fb (fill_rect fb x y w h) := by
  unfold fill_rect
  split
  · exact AccsOK_nil fb
  · rename_i hng
    push_neg at hng
    intro a ha
    simp only [List.mem_singleton] at ha
    subst ha
    unfold AccOK
    simp only [max_def, min_def] at *
    split_ifs <;> omega

/-- `framebuf_fill` dispatches the full in-bounds plane. -/
theorem framebuf_fill_ok (fb : FB) : AccsOK fb (framebuf_fill fb) := by
  intro a ha
  simp only [framebuf_fill, List.mem_singleton] at ha
  subst ha
  unfold AccOK
  omega

/-- The guarded write path of `framebuf_pixel` is in bounds. -/
theorem framebuf_pixel_set_ok (fb : FB) (x y : Int) :
    AccsOK fb (framebuf_pixel_set fb x y) := by
  unfold framebuf_pixel_set
  split
  · rename_i hg
    intro a ha
    simp only [List.mem_singleton] at ha
    subst ha
    exact hg
  · exact AccsOK_nil fb

/-- The guarded read path of `framebuf_pixel` is in bounds. -/
theorem framebuf_pixel_get_ok (fb : FB) (x y : Int) :
    AccsOK fb (framebuf_pixel_get fb x y) := by
  unfold framebuf_pixel_get
  split
  · rename_i hg
    intro a ha
    simp only [List.mem_singleton] at ha
    subst ha
    exact hg
  · exact AccsOK_nil fb

/-- `framebuf_hline` is in bounds (router). -/
theorem framebuf_hline_ok (fb : FB) (x y w : Int) :
    AccsOK fb (framebuf_hline fb x y w) := fill_rect_ok fb x y w 1

/-- `framebuf_vline` is in bounds (router). -/
theorem framebuf_vline_ok (fb : FB) (x y h : Int) :
    AccsOK fb (framebuf_vline fb x y h) := fill_rect_ok fb x y 1 h

/-- `framebuf_rect` is in bounds (four router calls). -/
theorem framebuf_rect_ok (fb : FB) (x y w h : Int) :
    AccsOK fb (framebuf_rect fb x y w h) := by
  unfold framebuf_rect
  exact AccsOK_append fb _ _
    (AccsOK_append fb _ _
      (AccsOK_append fb _ _ (fill_rect_ok fb _ _ _ _) (fill_rect_ok fb _ _ _ _))
      (fill_rect_ok fb _ _ _ _))
    (fill_rect_ok fb _ _ _ _)

/-- Each `drawLine` plot is guarded in bounds. -/
theorem drawLinePlot_ok (fb : FB) (steep : Bool) (x1 y1 : Int) :
    AccsOK fb (drawLinePlot fb steep x1 y1) := by
  unfold drawLinePlot
  split <;> split
  all_goals
    first
    | exact AccsOK_nil fb
    | (rename_i hg
       intro a ha
       simp only [List.mem_singleton] at ha
       subst ha
       unfold AccOK
       omega)

/-- The outer Bresenham loop only plots guarded pixels. -/
theorem drawLineAux_ok (fb : FB) (steep : Bool) (sx sy dx dy : Int) (ifuel : Nat) :
    ∀ n x1 y1 e, AccsOK fb (drawLineAux fb steep sx sy dx dy ifuel x1 y1 e n) := by
  intro n
  induction n with
  | zero => intro x1 y1 e; exact AccsOK_nil fb
  | succ n ih =>
    intro x1 y1 e
    unfold drawLineAux
    exact AccsOK_append fb _ _ (drawLinePlot_ok fb steep x1 y1) (ih _ _ _)

/-- `drawLine` performs only in-bounds accesses. -/
theorem drawLine_ok (fb : FB) (x1 y1 x2 y2 : Int) (ifuel : Nat) :
    AccsOK fb (drawLine fb x1 y1 x2 y2 ifuel) := by
  unfold drawLine
  apply AccsOK_append fb _ _ (drawLineAux_ok fb _ _ _ _ _ _ _ _ _ _)
  split
  · rename_i hg
    intro a ha
    simp only [List.mem_singleton] at ha
    subst ha
    exact hg
  · exact AccsOK_nil fb

/-- `framebuf_line` performs only in-bounds accesses. -/
theorem framebuf_line_ok (fb : FB) (x1 y1 x2 y2 : Int) (ifuel : Nat) :
    AccsOK fb (framebuf_line fb x1 y1 x2 y2 ifuel) := drawLine_ok fb x1 y1 x2 y2 ifuel

/-- A font column loop only plots pixels with both coordinates guarded. -/
theorem textCol_ok (fb : FB) (x : Int) (hx : 0 ≤ x ∧ x < fb.width) :
    ∀ v y, AccsOK fb (textCol fb x y v) := by
  intro v
  induction v using Nat.strong_induction_on with
  | _ v ih =>
    intro y
    unfold textCol
    split
    · exact AccsOK_nil fb
    · rename_i hv
      apply AccsOK_append fb
      · split
        · rename_i hg
          intro a ha
          simp only [List.mem_singleton] at ha
          subst ha
          unfold AccOK
          omega
        · exact AccsOK_nil fb
      · exact ih (v >>> 1) (by
          rw [Nat.shiftRight_one]
          exact Nat.div_lt_self (Nat.pos_of_ne_zero hv) one_lt_two) (y + 1)

/-- A glyph of `framebuf_text` performs only in-bounds accesses. -/
theorem textChar_ok (fb : FB) (font : Nat → Nat) (chr : Nat) (x0 y0 : Int) :
    AccsOK fb (textChar fb font chr x0 y0) := by
  intro a ha
  unfold textChar at ha
  simp only [List.mem_flatMap, List.mem_range] at ha
  obtain ⟨j, hj, hmem⟩ := ha
  revert hmem
  split
  · rename_i hg
    intro hmem
    exact textCol_ok fb (x0 + j) hg _ y0 a hmem
  · intro hmem
    simp at hmem

/-- `framebuf_text` performs only in-bounds accesses. -/
theorem framebuf_text_ok (fb : FB) (font : Nat → Nat) :
    ∀ cs x0 y0, AccsOK fb (framebuf_text fb font cs x0 y0) := by
  intro cs
  induction cs with
  | nil => intro x0 y0; exact AccsOK_nil fb
  | cons c rest ih =>
    intro x0 y0
    unfold framebuf_text
    exact AccsOK_append fb _ _ (textChar_ok fb font _ x0 y0) (ih _ _)

/-- All source reads of `framebuf_blit` are within the source plane. -/
theorem blit_src_ok (fb source : FB) (srcbuf : List Nat) (x y key : Int) :
    AccsOK source (blitSrcAccs fb source srcbuf x y key) := by
  intro a ha
  unfold blitSrcAccs framebuf_blit at ha
  revert ha
  split
  · intro ha; simp at ha
  · rename_i hng
    push_neg at hng
    intro ha
    simp only [List.mem_map, List.mem_flatMap, List.mem_range] at ha
    obtain ⟨ev, ⟨j, hj, i, hi, rfl⟩, rfl⟩ := ha
    unfold AccOK
    simp only [max_def, min_def] at *
    split_ifs at * <;> omega

/-- All destination writes of `framebuf_blit` are within the destination
plane. -/
theorem blit_dst_ok (fb source : FB) (srcbuf : List Nat) (x y key : Int) :
    AccsOK fb (blitDstAccs fb source srcbuf x y key) := by
  intro a ha
  unfold blitDstAccs framebuf_blit at ha
  revert ha
  split
  · intro ha; simp at ha
  · rename_i hng
    push_neg at hng
    intro ha
    simp only [List.mem_filterMap, List.mem_flatMap, List.mem_map,
      List.mem_range] at ha
    obtain ⟨ev, ⟨j, hj, i, hi, rfl⟩, hw⟩ := ha
    rw [if_pos] at hw
    · rw [Option.some_inj] at hw
      subst hw
      unfold AccOK
      simp only [max_def, min_def] at *
      split_ifs at * <;> omega
    · by_contra hc
      rw [if_neg hc] at hw
      exact Option.noConfusion hw

/-- An incrementing `!=` loop that starts above its end value never
terminates. -/
theorem cForLoop_one_none (endv : Int) :
    ∀ (fuel : Nat) (start : Int), endv < start → cForLoop 1 start endv fuel = none := by
  intro fuel
  induction fuel with
  | zero =>
    intro start h
    unfold cForLoop
    rw [if_neg (by omega)]
  | succ n ih =>
    intro start h
    unfold cForLoop
    rw [if_neg (by omega), ih (start + 1) (by omega)]
    rfl

/-- A decrementing `!=` loop that starts below its end value never
terminates. -/
theorem cForLoop_neg_none (endv : Int) :
    ∀ (fuel : Nat) (start : Int), start < endv → cForLoop (-1) start endv fuel = none := by
  intro fuel
  induction fuel with
  | zero =>
    intro start h
    unfold cForLoop
    rw [if_neg (by omega)]
  | succ n ih =>
    intro start h
    unfold cForLoop
    rw [if_neg (by omega), ih (start + -1) (by omega)]
    rfl

/-- Values visited by a terminating incrementing `!=` loop lie in
`[start, endv)`. -/
theorem cForLoop_one_mem (endv : Int) :
    ∀ (fuel : Nat) (start : Int) (l : List Int),
      cForLoop 1 start endv fuel = some l → ∀ v ∈ l, start ≤ v ∧ v < endv := by
  intro fuel
  induction fuel with
  | zero =>
    intro start l hl v hv
    unfold cForLoop at hl
    split at hl
    · rw [Option.some_inj] at hl; subst hl; simp at hv
    · exact Option.noConfusion hl
  | succ n ih =>
    intro start l hl v hv
    unfold cForLoop at hl
    split at hl
    · rw [Option.some_inj] at hl; subst hl; simp at hv
    · rename_i hne
      rw [Option.map_eq_some'] at hl
      obtain ⟨l', hrec, hl⟩ := hl
      subst hl
      rcases List.mem_cons.1 hv with hv0 | hv'
      · constructor
        · omega
        · by_contra hc
          have : endv < start + 1 := by omega
          rw [cForLoop_one_none endv n (start + 1) this] at hrec
          exact Option.noConfusion hrec
      · have := ih (start + 1) l' hrec v hv'
        omega

/-- Values visited by a terminating decrementing `!=` loop lie in
`(endv, start]`. -/
theorem cForLoop_neg_mem (endv : Int) :
    ∀ (fuel : Nat) (start : Int) (l : List Int),
      cForLoop (-1) start endv fuel = some l → ∀ v ∈ l, endv < v ∧ v ≤ start := by
  intro fuel
  induction fuel with
  | zero =>
    intro start l hl v hv
    unfold cForLoop at hl
    split at hl
    · rw [Option.some_inj] at hl; subst hl; simp at hv
    · exact Option.noConfusion hl
  | succ n ih =>
    intro start l hl v hv
    unfold cForLoop at hl
    split at hl
    · rw [Option.some_inj] at hl; subst hl; simp at hv
    · rename_i hne
      rw [Option.map_eq_some'] at hl
      obtain ⟨l', hrec, hl⟩ := hl
      subst hl
      rcases List.mem_cons.1 hv with hv0 | hv'
      · constructor
        · by_contra hc
          have : start + -1 < endv := by omega
          rw [cForLoop_neg_none endv n (start + -1) this] at hrec
          exact Option.noConfusion hrec
        · omega
      · have := ih (start + -1) l' hrec v hv'
        omega

/-- An incrementing `!=` loop terminates when the end value is ahead of the
start and the fuel covers the distance. -/
theorem cForLoop_one_some (endv : Int) :
    ∀ (fuel : Nat) (start : Int), start ≤ endv → (endv - start).toNat ≤ fuel →
      (cForLoop 1 start endv fuel).isSome := by
  intro fuel
  induction fuel with
  | zero =>
    intro start h1 h2
    unfold cForLoop
    rw [if_pos (by omega)]
    rfl
  | succ n ih =>
    intro start h1 h2
    unfold cForLoop
    rcases eq_or_lt_of_le h1 with he | hlt
    · rw [if_pos he]; rfl
    · rw [if_neg (by omega)]
      rw [Option.isSome_map']
      exact ih (start + 1) (by omega) (by omega)

/-- A decrementing `!=` loop terminates when the end value is behind the
start and the fuel covers the distance. -/
theorem cForLoop_neg_some (endv : Int) :
    ∀ (fuel : Nat) (start : Int), endv ≤ start → (start - endv).toNat ≤ fuel →
      (cForLoop (-1) start endv fuel).isSome := by
  intro fuel
  induction fuel with
  | zero =>
    intro start h1 h2
    unfold cForLoop
    rw [if_pos (by omega)]
    rfl
  | succ n ih =>
    intro start h1 h2
    unfold cForLoop
    rcases eq_or_lt_of_le h1 with he | hlt
    · rw [if_pos (by omega)]; rfl
    · rw [if_neg (by omega)]
      rw [Option.isSome_map']
      exact ih (start + -1) (by omega) (by omega)

/-- When the scroll loops terminate under step bounds `|xstep| ≤ width`,
`|ystep| ≤ height`, every access (both the `getpixel` read at
`(x - xstep, y - ystep)` and the `setpixel` write at `(x, y)`) is in
bounds. -/
theorem framebuf_scroll_ok (fb : FB) (xstep ystep : Int)
    (fuel : Nat) (l : List Access) (hs : framebuf_scroll fb xstep ystep fuel = some l) :
    AccsOK fb l := by
  unfold framebuf_scroll at hs
  dsimp only at hs
  intro a ha
  split at hs
  case h_2 => exact Option.noConfusion hs
  case h_1 ys xs hys hxs =>
    rw [Option.some_inj] at hs
    subst hs
    simp only [List.mem_flatMap, List.mem_cons, List.mem_singleton,
      List.not_mem_nil, or_false] at ha
    obtain ⟨yv, hyv, xv, hxv, hmem⟩ := ha
    have hyb : 0 ≤ yv - ystep ∧ yv - ystep < (fb.height : Int) ∧
        0 ≤ yv ∧ yv < (fb.height : Int) := by
      by_cases hc : ystep < 0
      · rw [if_pos hc] at hys
        dsimp only at hys
        have := cForLoop_one_mem _ fuel _ _ hys yv hyv
        omega
      · rw [if_neg hc] at hys
        dsimp only at hys
        have := cForLoop_neg_mem _ fuel _ _ hys yv hyv
        omega
    have hxb : 0 ≤ xv - xstep ∧ xv - xstep < (fb.width : Int) ∧
        0 ≤ xv ∧ xv < (fb.width : Int) := by
      by_cases hc : xstep < 0
      · rw [if_pos hc] at hxs
        dsimp only at hxs
        have := cForLoop_one_mem _ fuel _ _ hxs xv hxv
        omega
      · rw [if_neg hc] at hxs
        dsimp only at hxs
        have := cForLoop_neg_mem _ fuel _ _ hxs xv hxv
        omega
    rcases hmem with rfl | rfl
    · unfold AccOK
      omega
    · unfold AccOK
      omega

/-- Under the step bounds the scroll loops do terminate: fuel
`width + height` suffices for both `!=` loops. -/
theorem framebuf_scroll_term (fb : FB) (xstep ystep : Int)
    (hx : xstep.natAbs ≤ fb.width) (hy : ystep.natAbs ≤ fb.height) :
    (framebuf_scroll fb xstep ystep (fb.width + fb.height)).isSome := by
  unfold framebuf_scroll
  dsimp only
  by_cases hcx : xstep < 0 <;> by_cases hcy : ystep < 0 <;>
    simp only [hcx, hcy, if_true, if_false]
  · have h1 := cForLoop_one_some ((fb.height : Int) + ystep) (fb.width + fb.height) 0
      (by omega) (by omega)
    have h2 := cForLoop_one_some ((fb.width : Int) + xstep) (fb.width + fb.height) 0
      (by omega) (by omega)
    rcases hr1 : cForLoop 1 0 ((fb.height : Int) + ystep) (fb.width + fb.height) with - | l1
    · rw [hr1] at h1; simp at h1
    · rcases hr2 : cForLoop 1 0 ((fb.width : Int) + xstep) (fb.width + fb.height) with - | l2
      · rw [hr2] at h2; simp at h2
      · simp
  · have h1 := cForLoop_neg_some (ystep - 1) (fb.width + fb.height) ((fb.height : Int) - 1)
      (by omega) (by omega)
    have h2 := cForLoop_one_some ((fb.width : Int) + xstep) (fb.width + fb.height) 0
      (by omega) (by omega)
    rcases hr1 : cForLoop (-1) ((fb.height : Int) - 1) (ystep - 1) (fb.width + fb.height) with - | l1
    · rw [hr1] at h1; simp at h1
    · rcases hr2 : cForLoop 1 0 ((fb.width : Int) + xstep) (fb.width + fb.height) with - | l2
      · rw [hr2] at h2; simp at h2
      · simp
  · have h1 := cForLoop_one_some ((fb.height : Int) + ystep) (fb.width + fb.height) 0
      (by omega) (by omega)
    have h2 := cForLoop_neg_some (xstep - 1) (fb.width + fb.height) ((fb.width : Int) - 1)
      (by omega) (by omega)
    rcases hr1 : cForLoop 1 0 ((fb.height : Int) + ystep) (fb.width + fb.height) with - | l1
    · rw [hr1] at h1; simp at h1
    · rcases hr2 : cForLoop (-1) ((fb.width : Int) - 1) (xstep - 1) (fb.width + fb.height) with - | l2
      · rw [hr2] at h2; simp at h2
      · simp
  · have h1 := cForLoop_neg_some (ystep - 1) (fb.width + fb.height) ((fb.height : Int) - 1)
      (by omega) (by omega)
    have h2 := cForLoop_neg_some (xstep - 1) (fb.width + fb.height) ((fb.width : Int) - 1)
      (by omega) (by omega)
    rcases hr1 : cForLoop (-1) ((fb.height : Int) - 1) (ystep - 1) (fb.width + fb.height) with - | l1
    · rw [hr1] at h1; simp at h1
    · rcases hr2 : cForLoop (-1) ((fb.width : Int) - 1) (xstep - 1) (fb.width + fb.height) with - | l2
      · rw [hr2] at h2; simp at h2
      · simp

/-- The filled-circle loop routes every span through the clip router, so
all its accesses are in bounds. -/
theorem circleLoop_fill_ok (fb : FB) (x0 y0 : Int) :
    ∀ (n : Nat) (f ddFx ddFy x y : Int), (y - x).toNat ≤ n →
      AccsOK fb (circleLoop fb x0 y0 true f ddFx ddFy x y) := by
  intro n
  induction n with
  | zero =>
    intro f ddFx ddFy x y hn
    unfold circleLoop
    split
    · rename_i hxy
      omega
    · exact AccsOK_nil fb
  | succ n ih =>
    intro f ddFx ddFy x y hn
    unfold circleLoop
    dsimp only
    split
    · rename_i hxy
      by_cases hf : f ≥ 0 <;> simp only [hf, if_true, if_false] <;>
        apply AccsOK_append fb <;>
        first
        | (apply AccsOK_append fb <;>
            first
            | (apply AccsOK_append fb <;>
                first
                | (apply AccsOK_append fb <;> apply fill_rect_ok)
                | apply fill_rect_ok)
            | apply fill_rect_ok)
        | apply fill_rect_ok
        | (apply ih; omega)
    · exact AccsOK_nil fb

/-- `framebuf_circle` with `fill` set performs only in-bounds accesses
(central stroke and all spans go through the router). -/
theorem framebuf_circle_fill_ok (fb : FB) (x0 y0 r : Int) :
    AccsOK fb (framebuf_circle fb x0 y0 r true) := by
  unfold framebuf_circle
  exact AccsOK_append fb _ _ (by simp only [if_true]; exact fill_rect_ok fb _ _ _ _)
    (circleLoop_fill_ok fb x0 y0 (r - 0).toNat _ _ _ _ _ le_rfl)

/-- The first filled-triangle scanline loop emits only router spans. -/
theorem traingleLoop1_ok (fb : FB) (x0 dx01 dy01 dx02 dy02 last : Int) :
    ∀ fuel y sa sb,
      AccsOK fb (traingleLoop1 fb x0 dx01 dy01 dx02 dy02 last y sa sb fuel).1 := by
  intro fuel
  induction fuel with
  | zero => intro y sa sb; exact AccsOK_nil fb
  | succ n ih =>
    intro y sa sb
    unfold traingleLoop1
    split
    · exact AccsOK_append fb _ _ (fill_rect_ok fb _ _ _ _) (ih _ _ _)
    · exact AccsOK_nil fb

/-- The second filled-triangle scanline loop emits only router spans. -/
theorem traingleLoop2_ok (fb : FB) (x0 x1 dx12 dy12 dx02 dy02 y2 : Int) :
    ∀ fuel y sa sb,
      AccsOK fb (traingleLoop2 fb x0 x1 dx12 dy12 dx02 dy02 y2 y sa sb fuel) := by
  intro fuel
  induction fuel with
  | zero => intro y sa sb; exact AccsOK_nil fb
  | succ n ih =>
    intro y sa sb
    unfold traingleLoop2
    split
    · exact AccsOK_append fb _ _ (fill_rect_ok fb _ _ _ _) (ih _ _ _)
    · exact AccsOK_nil fb

/-- The colinear filled-triangle case is one router span. -/
theorem traingleColinear_ok (fb : FB) (y0 x0 x1 x2 : Int) :
    AccsOK fb (traingleColinear fb y0 x0 x1 x2) := by
  unfold traingleColinear
  exact fill_rect_ok fb _ _ _ _

/-- The filled-triangle sweep emits only router spans. -/
theorem traingleSweep_ok (fb : FB) (y0 y1 y2 x0 x1 x2 : Int) (fuel : Nat) :
    AccsOK fb (traingleSweep fb y0 y1 y2 x0 x1 x2 fuel) := by
  unfold traingleSweep
  exact AccsOK_append fb _ _ (traingleLoop1_ok fb _ _ _ _ _ _ _ _ _ _)
    (traingleLoop2_ok fb _ _ _ _ _ _ _ _ _ _ _)

/-- The filled triangle performs only in-bounds accesses. -/
theorem traingleFilled_ok (fb : FB) (y0 y1 y2 x0 x1 x2 : Int) (fuel : Nat) :
    AccsOK fb (traingleFilled fb y0 y1 y2 x0 x1 x2 fuel) := by
  unfold traingleFilled
  split
  · exact traingleColinear_ok fb _ _ _ _
  · exact traingleSweep_ok fb _ _ _ _ _ _ _

/-- `framebuf_traingle` performs only in-bounds accesses: the filled paths
route through the clip router and the outline is three guarded
`drawLine`s. -/
theorem framebuf_traingle_ok (fb : FB) (x0i y0i x1i y1i x2i y2i : Int)
    (fill : Bool) (fuel ifuel : Nat) :
    AccsOK fb (framebuf_traingle fb x0i y0i x1i y1i x2i y2i fill fuel ifuel) := by
  unfold framebuf_traingle
  split
  · exact traingleFilled_ok fb _ _ _ _ _ _ _
  · exact AccsOK_append fb _ _
      (AccsOK_append fb _ _ (drawLine_ok fb _ _ _ _ _) (drawLine_ok fb _ _ _ _ _))
      (drawLine_ok fb _ _ _ _ _)

/-- Every byte touched by an in-bounds access lies inside the declared
buffer range. -/
theorem accBytes_lt (fb : FB) (hv : fb.valid) (a : Access) (ha : AccOK fb a) :
    ∀ i ∈ accBytes fb a, i < declLen fb := by
  cases a with
  | setp x y =>
    unfold AccOK at ha
    exact pixelBytes_lt fb hv x.toNat y.toNat (by omega) (by omega)
  | getp x y =>
    unfold AccOK at ha
    exact pixelBytes_lt fb hv x.toNat y.toNat (by omega) (by omega)
  | rect x y w h =>
    unfold AccOK at ha
    exact fill_writes_lt fb hv x.toNat y.toNat w.toNat h.toNat (by omega) (by omega)

/-- Every format's `getpixel` yields at most 16 significant bits (monochrome
1 bit, GS2 2, GS4 4, PL8 8, RGB565 16). -/
theorem getpixel_le (format stride : Nat) (buf : List Nat) (x y : Nat)
    (hwf : ∀ b ∈ buf, b < 256) :
    getpixel format stride buf x y ≤ 65535 := by
  unfold getpixel
  split_ifs with h0 h1 h2 h3 h4 h5
  · unfold mvlsb_getpixel
    calc getByte buf ((y >>> 3) * stride + x) >>> (y % 8) &&& 1 ≤ 1 := Nat.and_le_right
    _ ≤ 65535 := by norm_num
  · unfold rgb565_getpixel
    have ha := getByte_lt buf (2 * (x + y * stride)) hwf
    have hb := getByte_lt buf (2 * (x + y * stride) + 1) hwf
    dsimp only
    omega
  · unfold gs2_hmsb_getpixel
    calc (getByte buf ((x + y * stride) >>> 2) >>> ((x % 4) <<< 1)) &&& 3 ≤ 3 :=
      Nat.and_le_right
    _ ≤ 65535 := by norm_num
  · unfold gs4_hmsb_getpixel
    split
    · calc getByte buf ((x + y * stride) >>> 1) &&& 15 ≤ 15 := Nat.and_le_right
      _ ≤ 65535 := by norm_num
    · have := getByte_lt buf ((x + y * stride) >>> 1) hwf
      have h16 : getByte buf ((x + y * stride) >>> 1) >>> 4 ≤
          getByte buf ((x + y * stride) >>> 1) := by
        rw [Nat.shiftRight_eq_div_pow]
        exact Nat.div_le_self _ _
      omega
  · unfold gs8_getpixel
    have := getByte_lt buf (x + y * stride) hwf
    omega
  · unfold mono_horiz_getpixel
    calc (getByte buf ((x + y * stride) >>> 3) >>>
        (if format = FRAMEBUF_MHMSB then x % 8 else 7 - x % 8)) &&& 1 ≤ 1 := Nat.and_le_right
    _ ≤ 65535 := by norm_num
  · norm_num

/-- C1 (amended): for every valid framebuffer, the primitives `fill`,
`fill_rect`, `pixel` (read and write), `hline`, `vline`, `rect`, `line`,
`text`, `blit` (reads against the source plane, writes against the
destination), `scroll` whenever its loops complete (in particular under
`|xstep| ≤ width`, `|ystep| ≤ height`), the filled `circle`, and
`traingle` only access pixel coordinates clipped to
`[0, width) × [0, height)`, and every such in-bounds access touches only
bytes inside the declared range `[0, stride*height*bpp)` — so no byte
outside the declared buffer range is read or written by these paths.  The
unfilled `circle` outline is excluded: it calls `setpixel` with no bounds
check (see the counterexample). -/
theorem C1_clipped_primitives_in_bounds (fb : FB) (hv : fb.valid) :
    (∀ x y w h : Int, AccsOK fb (framebuf_fill_rect fb x y w h)) ∧
    AccsOK fb (framebuf_fill fb) ∧
    (∀ x y : Int, AccsOK fb (framebuf_pixel_set fb x y)) ∧
    (∀ x y : Int, AccsOK fb (framebuf_pixel_get fb x y)) ∧
    (∀ x y w : Int, AccsOK fb (framebuf_hline fb x y w)) ∧
    (∀ x y h : Int, AccsOK fb (framebuf_vline fb x y h)) ∧
    (∀ x y w h : Int, AccsOK fb (framebuf_rect fb x y w h)) ∧
    (∀ (x1 y1 x2 y2 : Int) (ifuel : Nat),
      AccsOK fb (framebuf_line fb x1 y1 x2 y2 ifuel)) ∧
    (∀ (font : Nat → Nat) (cs : List Nat) (x0 y0 : Int),
      AccsOK fb (framebuf_text fb font cs x0 y0)) ∧
    (∀ (source : FB) (srcbuf : List Nat) (x y key : Int),
      AccsOK fb (blitDstAccs fb source srcbuf x y key)) ∧
    (∀ (source : FB) (srcbuf : List Nat) (x y key : Int),
      AccsOK source (blitSrcAccs fb source srcbuf x y key)) ∧
    (∀ (xstep ystep : Int) (fuel : Nat) (l : List Access),
      framebuf_scroll fb xstep ystep fuel = some l → AccsOK fb l) ∧
    (∀ x0 y0 r : Int, AccsOK fb (framebuf_circle fb x0 y0 r true)) ∧
    (∀ (x0i y0i x1i y1i x2i y2i : Int) (fill : Bool) (fuel ifuel : Nat),
      AccsOK fb (framebuf_traingle fb x0i y0i x1i y1i x2i y2i fill fuel ifuel)) ∧
    (∀ a : Access, AccOK fb a → ∀ i ∈ accBytes fb a, i < declLen fb) := by
  refine ⟨?_, framebuf_fill_ok fb, ?_, ?_, ?_, ?_, ?_, ?_, ?_, ?_, ?_, ?_, ?_, ?_, ?_⟩
  · intro x y w h
    exact fill_rect_ok fb x y w h
  · intro x y
    exact framebuf_pixel_set_ok fb x y
  · intro x y
    exact framebuf_pixel_get_ok fb x y
  · intro x y w
    exact framebuf_hline_ok fb x y w
  · intro x y h
    exact framebuf_vline_ok fb x y h
  · intro x y w h
    exact framebuf_rect_ok fb x y w h
  · intro x1 y1 x2 y2 ifuel
    exact framebuf_line_ok fb x1 y1 x2 y2 ifuel
  · intro font cs x0 y0
    exact framebuf_text_ok fb font cs x0 y0
  · intro source srcbuf x y key
    exact blit_dst_ok fb source srcbuf x y key
  · intro source srcbuf x y key
    exact blit_src_ok fb source srcbuf x y key
  · intro xstep ystep fuel l hs
    exact framebuf_scroll_ok fb xstep ystep fuel l hs
  · intro x0 y0 r
    exact framebuf_circle_fill_ok fb x0 y0 r
  · intro x0i y0i x1i y1i x2i y2i fill fuel ifuel
    exact framebuf_traingle_ok fb x0i y0i x1i y1i x2i y2i fill fuel ifuel
  · intro a ha
    exact accBytes_lt fb hv a ha

/-- C1 witness: a concrete valid 8×8 MVLSB framebuffer; the router
instantiated at the spec's scenario `fill_rect(-5, -5, 10, 10)` yields the
in-bounds access `rect 0 0 5 5`. -/
theorem C1_witness : AccOK ⟨8, 8, 8, 0⟩ (Access.rect 0 0 5 5) :=
  (C1_clipped_primitives_in_bounds ⟨8, 8, 8, 0⟩ (by decide)).1 (-5) (-5) 10 10
    (Access.rect 0 0 5 5) (by decide)

/-- C1 counterexample: the unfilled `circle` primitive on a valid 8×8
MVLSB framebuffer (declared length 64 bytes), called with the wholly
off-canvas centre `(100, 0)` and radius 1, performs the unguarded
`setpixel(101, 0)`, which writes byte index 101 — outside the declared
buffer range.  This refutes the claim that every primitive, including
`circle`, never touches a byte outside `[buffer, buffer + length)`. -/
theorem C1_counterexample :
    FB.valid ⟨8, 8, 8, 0⟩ ∧
    Access.setp 101 0 ∈ framebuf_circle ⟨8, 8, 8, 0⟩ 100 0 1 false ∧
    accBytes ⟨8, 8, 8, 0⟩ (Access.setp 101 0) = [101] ∧
    declLen ⟨8, 8, 8, 0⟩ = 64 ∧ ¬ (101 < 64) := by
  refine ⟨by decide, ?_, by decide, by decide, by decide⟩
  simp [framebuf_circle, circleLoop]

/-- C2 (confirmed): the clipped-rectangle router is a no-op exactly when
`w < 1 ∨ h < 1 ∨ x + w ≤ 0 ∨ y + h ≤ 0 ∨ y ≥ height ∨ x ≥ width`, and
otherwise dispatches the format `fill_rect` once with
`x' = max(x, 0)`, `y' = max(y, 0)`, width `min(width, x+w) - x'` and
height `min(height, y+h) - y'`. -/
theorem C2_fill_rect_router_contract (fb : FB) (x y w h : Int) :
    (w < 1 ∨ h < 1 ∨ x + w ≤ 0 ∨ y + h ≤ 0 ∨ y ≥ (fb.height : Int) ∨
        x ≥ (fb.width : Int) →
      fill_rect fb x y w h = []) ∧
    (¬ (w < 1 ∨ h < 1 ∨ x + w ≤ 0 ∨ y + h ≤ 0 ∨ y ≥ (fb.height : Int) ∨
        x ≥ (fb.width : Int)) →
      fill_rect fb x y w h =
        [Access.rect (max x 0) (max y 0)
          (min (fb.width : Int) (x + w) - max x 0)
          (min (fb.height : Int) (y + h) - max y 0)]) := by
  constructor
  · intro hc
    unfold fill_rect
    rw [if_pos (by omega)]
  · intro hc
    unfold fill_rect
    rw [if_neg (by omega)]

/-- C2 witness: the spec's concrete scenario
`fill_rect(-5, -5, 10, 10)` on an 8×8 plane clips to `(0, 0, 5, 5)`. -/
theorem C2_witness :
    fill_rect ⟨8, 8, 8, 0⟩ (-5) (-5) 10 10 = [Access.rect 0 0 5 5] := by
  have := (C2_fill_rect_router_contract ⟨8, 8, 8, 0⟩ (-5) (-5) 10 10).2 (by decide)
  simpa using this

/-- C3 (amended): `rgb565_setpixel` stores the byte-swapped packed word
`rgb565_stored col = ((p & 0xff) << 8) | ((p >> 8) & 0xff)` with
`p = COL col` as a little-endian halfword, and `rgb565_getpixel` returns
exactly that stored word.  On the 2×1 zeroed scenario,
`pixel(0, 0, 0xFF0000)` leaves byte 0 equal to `0xF8` and byte 1 equal to
`0x00` (the byte order the claim states is reversed). -/
theorem C3_rgb565_stored_word (stride x y col : Nat) (buf : List Nat)
    (hlen : 2 * (x + y * stride) + 1 < buf.length) :
    getByte (rgb565_setpixel stride buf x y col) (2 * (x + y * stride))
        = rgb565_stored col % 256 ∧
    getByte (rgb565_setpixel stride buf x y col) (2 * (x + y * stride) + 1)
        = rgb565_stored col / 256 ∧
    rgb565_getpixel stride (rgb565_setpixel stride buf x y col) x y
        = rgb565_stored col ∧
    rgb565_stored 0xFF0000 = 0x00F8 ∧
    rgb565_setpixel 2 [0, 0, 0, 0] 0 0 0xFF0000 = [0xF8, 0x00, 0x00, 0x00] := by
  refine ⟨?_, ?_, rgb565_get_set stride x y col buf hlen, by decide, by decide⟩
  · unfold rgb565_setpixel
    dsimp only
    rw [getByte_set_ne _ _ _ _ (by omega)]
    rw [getByte_set_self _ _ _ (by omega)]
  · unfold rgb565_setpixel
    dsimp only
    rw [getByte_set_self _ _ _ (by simpa using hlen)]

/-- C3 witness: the concrete 2×1 scenario instantiating the theorem. -/
theorem C3_witness :
    2 * (0 + 0 * 2) + 1 < ([0, 0, 0, 0] : List Nat).length ∧
    rgb565_getpixel 2 (rgb565_setpixel 2 [0, 0, 0, 0] 0 0 0xFF0000) 0 0
      = rgb565_stored 0xFF0000 :=
  ⟨by decide, (C3_rgb565_stored_word 2 0 0 0xFF0000 [0, 0, 0, 0] (by decide)).2.2.1⟩

/-- C3 counterexample: on the claimed scenario the buffer starts
`[0xF8, 0x00]`, not `[0x00, 0xF8]`: byte 0 is `0xF8`, refuting "byte 0
equal to 0x00 and byte 1 equal to 0xF8". -/
theorem C3_counterexample :
    getByte (rgb565_setpixel 2 [0, 0, 0, 0] 0 0 0xFF0000) 0 = 0xF8 ∧
    getByte (rgb565_setpixel 2 [0, 0, 0, 0] 0 0 0xFF0000) 1 = 0x00 ∧
    ¬ (getByte (rgb565_setpixel 2 [0, 0, 0, 0] 0 0 0xFF0000) 0 = 0x00 ∧
       getByte (rgb565_setpixel 2 [0, 0, 0, 0] 0 0 0xFF0000) 1 = 0xF8) := by
  decide

/-- C4 (amended): for every valid framebuffer, in-bounds coordinate and
colour representable in the format's bit depth, `pixel(x,y,c)` followed by
`pixel(x,y)` returns `c` for the six sub-16-bit formats (monochrome with
`c < 2`, GS2 with `c < 4`, GS4 with `c < 16`, PL8 with `c < 256`); for
RGB565, however, the read returns the byte-swapped 5-6-5 packing
`rgb565_stored c`, not `c` itself (see the counterexample). -/
theorem C4_pixel_roundtrip (fb : FB) (hv : fb.valid) (buf : List Nat)
    (x y : Int) (c : Nat)
    (hx0 : 0 ≤ x) (hx : x < fb.width) (hy0 : 0 ≤ y) (hy : y < fb.height)
    (hlen : declLen fb ≤ buf.length) (hwf : ∀ b ∈ buf, b < 256) :
    ((fb.format = FRAMEBUF_MVLSB ∨ fb.format = FRAMEBUF_MHLSB ∨
        fb.format = FRAMEBUF_MHMSB) → c < 2 →
      framebuf_pixel_getb fb (framebuf_pixel_setb fb buf x y c) x y = some c) ∧
    (fb.format = FRAMEBUF_GS2_HMSB → c < 4 →
      framebuf_pixel_getb fb (framebuf_pixel_setb fb buf x y c) x y = some c) ∧
    (fb.format = FRAMEBUF_GS4_HMSB → c < 16 →
      framebuf_pixel_getb fb (framebuf_pixel_setb fb buf x y c) x y = some c) ∧
    (fb.format = FRAMEBUF_PL8 → c < 256 →
      framebuf_pixel_getb fb (framebuf_pixel_setb fb buf x y c) x y = some c) ∧
    (fb.format = FRAMEBUF_RGB565 →
      framebuf_pixel_getb fb (framebuf_pixel_setb fb buf x y c) x y
        = some (rgb565_stored c)) := by
  have hin : 0 ≤ x ∧ x < (fb.width : Int) ∧ 0 ≤ y ∧ y < (fb.height : Int) :=
    ⟨hx0, hx, hy0, hy⟩
  have hxn : x.toNat < fb.width := by omega
  have hyn : y.toNat < fb.height := by omega
  have hpix := pixelBytes_lt fb hv x.toNat y.toNat hxn hyn
  simp only [framebuf_pixel_setb, framebuf_pixel_getb, if_pos hin]
  refine ⟨?_, ?_, ?_, ?_, ?_⟩
  · rintro (hf | hf | hf) hc
    · have hidx : (y.toNat >>> 3) * fb.stride + x.toNat < buf.length := by
        have := hpix ((y.toNat >>> 3) * fb.stride + x.toNat)
          (by simp [pixelBytes, hf, FRAMEBUF_MVLSB, FRAMEBUF_RGB565])
        omega
      simp only [getpixel, setpixel, hf, FRAMEBUF_MVLSB, FRAMEBUF_RGB565,
        FRAMEBUF_GS2_HMSB, FRAMEBUF_GS4_HMSB, FRAMEBUF_PL8, FRAMEBUF_MHLSB,
        FRAMEBUF_MHMSB, if_true, if_false]
      norm_num
      rw [mvlsb_get_set fb.stride x.toNat y.toNat c buf hidx hwf]
      by_cases hc0 : c = 0 <;> simp [hc0] <;> omega
    · have hidx : (x.toNat + y.toNat * fb.stride) >>> 3 < buf.length := by
        have := hpix ((x.toNat + y.toNat * fb.stride) >>> 3)
          (by simp [pixelBytes, hf, FRAMEBUF_MVLSB, FRAMEBUF_RGB565,
            FRAMEBUF_GS2_HMSB, FRAMEBUF_GS4_HMSB, FRAMEBUF_PL8, FRAMEBUF_MHLSB,
            FRAMEBUF_MHMSB])
        omega
      simp only [getpixel, setpixel, hf, FRAMEBUF_MVLSB, FRAMEBUF_RGB565,
        FRAMEBUF_GS2_HMSB, FRAMEBUF_GS4_HMSB, FRAMEBUF_PL8, FRAMEBUF_MHLSB,
        FRAMEBUF_MHMSB, if_true, if_false]
      norm_num
      rw [mono_horiz_get_set 3 fb.stride x.toNat y.toNat c buf hidx hwf]
      by_cases hc0 : c = 0 <;> simp [hc0] <;> omega
    · have hidx : (x.toNat + y.toNat * fb.stride) >>> 3 < buf.length := by
        have := hpix ((x.toNat + y.toNat * fb.stride) >>> 3)
          (by simp [pixelBytes, hf, FRAMEBUF_MVLSB, FRAMEBUF_RGB565,
            FRAMEBUF_GS2_HMSB, FRAMEBUF_GS4_HMSB, FRAMEBUF_PL8, FRAMEBUF_MHLSB,
            FRAMEBUF_MHMSB])
        omega
      simp only [getpixel, setpixel, hf, FRAMEBUF_MVLSB, FRAMEBUF_RGB565,
        FRAMEBUF_GS2_HMSB, FRAMEBUF_GS4_HMSB, FRAMEBUF_PL8, FRAMEBUF_MHLSB,
        FRAMEBUF_MHMSB, if_true, if_false]
      norm_num
      rw [mono_horiz_get_set 4 fb.stride x.toNat y.toNat c buf hidx hwf]
      by_cases hc0 : c = 0 <;> simp [hc0] <;> omega
  · intro hf hc
    have hidx : (x.toNat + y.toNat * fb.stride) >>> 2 < buf.length := by
      have := hpix ((x.toNat + y.toNat * fb.stride) >>> 2)
        (by simp [pixelBytes, hf, FRAMEBUF_MVLSB, FRAMEBUF_RGB565,
          FRAMEBUF_GS2_HMSB, FRAMEBUF_GS4_HMSB, FRAMEBUF_PL8])
      omega
    simp only [getpixel, setpixel, hf, FRAMEBUF_MVLSB, FRAMEBUF_RGB565,
      FRAMEBUF_GS2_HMSB, FRAMEBUF_GS4_HMSB, FRAMEBUF_PL8, FRAMEBUF_MHLSB,
      FRAMEBUF_MHMSB, if_true, if_false]
    norm_num
    rw [gs2_hmsb_get_set fb.stride x.toNat y.toNat c buf hidx hwf]
    have : c &&& 3 = c % 4 := Nat.and_pow_two_sub_one_eq_mod c 2
    omega
  · intro hf hc
    have hidx : (x.toNat + y.toNat * fb.stride) >>> 1 < buf.length := by
      have := hpix ((x.toNat + y.toNat * fb.stride) >>> 1)
        (by simp [pixelBytes, hf, FRAMEBUF_MVLSB, FRAMEBUF_RGB565,
          FRAMEBUF_GS2_HMSB, FRAMEBUF_GS4_HMSB, FRAMEBUF_PL8])
      omega
    simp only [getpixel, setpixel, hf, FRAMEBUF_MVLSB, FRAMEBUF_RGB565,
      FRAMEBUF_GS2_HMSB, FRAMEBUF_GS4_HMSB, FRAMEBUF_PL8, FRAMEBUF_MHLSB,
      FRAMEBUF_MHMSB, if_true, if_false]
    norm_num
    rw [gs4_hmsb_get_set fb.stride x.toNat y.toNat c buf hidx hc]
  · intro hf hc
    have hidx : x.toNat + y.toNat * fb.stride < buf.length := by
      have := hpix (x.toNat + y.toNat * fb.stride)
        (by simp [pixelBytes, hf, FRAMEBUF_MVLSB, FRAMEBUF_RGB565,
          FRAMEBUF_GS2_HMSB, FRAMEBUF_GS4_HMSB, FRAMEBUF_PL8])
      omega
    simp only [getpixel, setpixel, hf, FRAMEBUF_MVLSB, FRAMEBUF_RGB565,
      FRAMEBUF_GS2_HMSB, FRAMEBUF_GS4_HMSB, FRAMEBUF_PL8, FRAMEBUF_MHLSB,
      FRAMEBUF_MHMSB, if_true, if_false]
    norm_num
    rw [gs8_get_set fb.stride x.toNat y.toNat c buf hidx]
    have : c &&& 255 = c % 256 := Nat.and_pow_two_sub_one_eq_mod c 8
    omega
  · intro hf
    have hidx : 2 * (x.toNat + y.toNat * fb.stride) + 1 < buf.length := by
      have := hpix (2 * (x.toNat + y.toNat * fb.stride) + 1)
        (by simp [pixelBytes, hf, FRAMEBUF_MVLSB, FRAMEBUF_RGB565])
      omega
    simp only [getpixel, setpixel, hf, FRAMEBUF_MVLSB, FRAMEBUF_RGB565,
      FRAMEBUF_GS2_HMSB, FRAMEBUF_GS4_HMSB, FRAMEBUF_PL8, FRAMEBUF_MHLSB,
      FRAMEBUF_MHMSB, if_true, if_false]
    norm_num
    rw [rgb565_get_set fb.stride x.toNat y.toNat c buf hidx]

/-- C4 counterexample: on a valid 1×1 RGB565 framebuffer, setting colour
`c = 1` (representable in 16 bits) and reading it back returns `0`, not
`1`: `getpixel` returns the byte-swapped 5-6-5 packing, which is lossy and
format-encoded, so the set/get round trip fails for RGB565. -/
theorem C4_counterexample :
    FB.valid ⟨1, 1, 1, FRAMEBUF_RGB565⟩ ∧
    framebuf_pixel_getb ⟨1, 1, 1, FRAMEBUF_RGB565⟩
        (framebuf_pixel_setb ⟨1, 1, 1, FRAMEBUF_RGB565⟩ [0, 0] 0 0 1) 0 0
      = some 0 ∧
    (0 : Nat) ≠ 1 := by decide

/-- C4 witness: the PL8 round trip at a concrete input. -/
theorem C4_witness :
    framebuf_pixel_getb ⟨4, 1, 4, FRAMEBUF_PL8⟩
        (framebuf_pixel_setb ⟨4, 1, 4, FRAMEBUF_PL8⟩ [0, 0, 0, 0] 1 0 171) 1 0
      = some 171 :=
  (C4_pixel_roundtrip ⟨4, 1, 4, FRAMEBUF_PL8⟩ (by decide) [0, 0, 0, 0] 1 0 171
    (by decide) (by decide) (by decide) (by decide) (by decide)
    (by decide)).2.2.2.1 rfl (by decide)

/-- C5 (amended): on a FrameBuffer constructed over a zeroed 16-byte
buffer as 8×8 MONO_HMSB (format 4; construction aligns the stride to 8),
`pixel(0, 0, 1)` makes buffer byte 0 equal `0x01` (bit `x & 7 = 0`, the
LSB — not `0x80` as claimed), and a subsequent `pixel(7, 0, 1)` sets bit 7
making byte 0 equal `0x81` (as claimed). -/
theorem C5_mono_hmsb_scenario :
    framebuf_make_new 8 8 4 none = some ⟨8, 8, 8, 4⟩ ∧
    getByte (framebuf_pixel_setb ⟨8, 8, 8, 4⟩ (List.replicate 16 0) 0 0 1) 0 = 0x01 ∧
    getByte (framebuf_pixel_setb ⟨8, 8, 8, 4⟩
      (framebuf_pixel_setb ⟨8, 8, 8, 4⟩ (List.replicate 16 0) 0 0 1) 7 0 1) 0
      = 0x81 := by decide

/-- C5 counterexample: after the first `pixel(0, 0, 1)` byte 0 is `0x01`,
refuting the claimed `0x80` (MONO_HMSB puts pixel `x` at bit `x & 7`). -/
theorem C5_counterexample :
    getByte (framebuf_pixel_setb ⟨8, 8, 8, 4⟩ (List.replicate 16 0) 0 0 1) 0 = 0x01 ∧
    getByte (framebuf_pixel_setb ⟨8, 8, 8, 4⟩ (List.replicate 16 0) 0 0 1) 0 ≠ 0x80 := by
  decide

/-- C6 (code bug): in `gif_dispimage`, a mid-row run of identical indices
equal to the transparency index under disposal method 2 is painted with
`*(pTrans + OldIndex)` — the palette entry of the transparent index —
instead of the background colour, contradicting the adjacent original
(commented-out) call and the single-pixel and end-of-row paths, which use
`bkcolor`.  Concretely: palette `[10, 20, 30, 40]`, background index 0
(background colour 10), transparency index 1, disposal 2, row indices
`[1, 1, 2]`: the transparent run of length 2 is emitted as a fill with
colour `palette[1] = 20`, not the background colour 10. -/
theorem C6_transparent_run_disposal2_paints_palette_entry :
    gif_disprow [10, 20, 30, 40] 10 1 2 0 0 [1, 1, 2]
      = [GAct.gfill 0 0 2 1 20, GAct.gset 2 0 30] ∧
    palGet [10, 20, 30, 40] 1 = 20 ∧
    (20 : Nat) ≠ 10 := by decide

/-- With the decoding flag always true the sleep loop runs its full
countdown. -/
theorem gif_sleepCalls_all_true (flag : Nat → Bool) (hall : ∀ i, flag i = true) :
    ∀ d s, gif_sleepCalls flag d s = d := by
  intro d
  induction d with
  | zero => intro s; rfl
  | succ n ih =>
    intro s
    unfold gif_sleepCalls
    rw [hall s, if_pos rfl, ih (s + 1)]
    omega

/-- If the decoding flag goes false at check `k` (counting from `s`), the
sleep loop performs exactly `min d k` delay calls. -/
theorem gif_sleepCalls_cancel (flag : Nat → Bool) :
    ∀ d s k, (∀ i < k, flag (s + i) = true) → flag (s + k) = false →
      gif_sleepCalls flag d s = min d k := by
  intro d
  induction d with
  | zero => intro s k h1 h2; simp [gif_sleepCalls]
  | succ n ih =>
    intro s k h1 h2
    unfold gif_sleepCalls
    rcases Nat.eq_zero_or_pos k with hk0 | hk1
    · subst hk0
      rw [show s + 0 = s from rfl] at h2
      rw [h2]
      simp
    · have hfs : flag s = true := by
        have := h1 0 (by omega)
        simpa using this
      rw [hfs, if_pos rfl]
      have := ih (s + 1) (k - 1)
        (fun i hi => by
          have := h1 (i + 1) (by omega)
          simpa [Nat.add_assoc, Nat.add_comm 1 i] using this)
        (by
          have : s + 1 + (k - 1) = s + k := by omega
          rw [this]
          exact h2)
      rw [this]
      omega

/-- C7 (amended): after each decoded frame `framebuf_loadgif` initialises
the countdown to `delay` if the frame delay is nonzero and to 10
otherwise — not `max(delay, 10)` — and then calls the HAL 10-ms delay once
per countdown step, exiting early at the first check where the decoding
flag is false (performing `min(dtime, k)` delay calls when the flag first
reads false at check `k`). -/
theorem C7_sleep_loop (delay : Nat) (flag : Nat → Bool) :
    gif_dtime delay = (if delay ≠ 0 then delay else 10) ∧
    ((∀ i, flag i = true) →
      gif_sleepCalls flag (gif_dtime delay) 0 = gif_dtime delay) ∧
    (∀ k, (∀ i < k, flag i = true) → flag k = false →
      gif_sleepCalls flag (gif_dtime delay) 0 = min (gif_dtime delay) k) := by
  refine ⟨rfl, ?_, ?_⟩
  · intro hall
    exact gif_sleepCalls_all_true flag hall (gif_dtime delay) 0
  · intro k h1 h2
    exact gif_sleepCalls_cancel flag (gif_dtime delay) 0 k
      (fun i hi => by simpa using h1 i hi) (by simpa using h2)

/-- C7 witness: with the flag held true and `delay = 7` the loop performs
exactly 7 delay calls. -/
theorem C7_witness :
    gif_sleepCalls (fun _ => true) (gif_dtime 7) 0 = gif_dtime 7 :=
  (C7_sleep_loop 7 (fun _ => true)).2.1 (fun _ => rfl)

/-- C7 counterexample: with `delay = 5` and the decoding flag held true,
the loop performs 5 delay calls, not `max(5, 10) = 10` as the claim
states — the code uses `delay ? delay : 10`, which differs from
`max(delay, 10)` for every `delay` in `1..9`. -/
theorem C7_counterexample :
    gif_sleepCalls (fun _ => true) (gif_dtime 5) 0 = 5 ∧
    (5 : Nat) ≠ max 5 10 := by decide

/-- C8 (amended): `framebuf_make_new` raises `ValueError` exactly when the
low 8 bits of the format argument (the value stored into the `uint8_t`
format field) are not one of the seven recognised constants; on success
the stored 16-bit stride is aligned up per format: monochrome horizontal
formats to a multiple of 8, GS2_HMSB to 4, GS4_HMSB to 2, and MVLSB /
RGB565 / PL8 keep it unchanged (the `align` functions round up to the next
multiple; the `% 65536` is the `uint16_t` store). -/
theorem C8_make_new_contract (w h fmt : Int) (sIn : Option Int) :
    (framebuf_make_new w h fmt sIn = none ↔
      ¬ (fmt % 256 = 0 ∨ fmt % 256 = 1 ∨ fmt % 256 = 2 ∨ fmt % 256 = 3 ∨
         fmt % 256 = 4 ∨ fmt % 256 = 5 ∨ fmt % 256 = 6)) ∧
    (∀ g, framebuf_make_new w h fmt sIn = some g →
      g.format = (fmt % 256).toNat ∧
      ((g.format = FRAMEBUF_MHLSB ∨ g.format = FRAMEBUF_MHMSB) →
        g.stride = align8 (strideReq w sIn) % 65536 ∧ g.stride % 8 = 0) ∧
      (g.format = FRAMEBUF_GS2_HMSB →
        g.stride = align4 (strideReq w sIn) % 65536 ∧ g.stride % 4 = 0) ∧
      (g.format = FRAMEBUF_GS4_HMSB →
        g.stride = align2 (strideReq w sIn) % 65536 ∧ g.stride % 2 = 0) ∧
      ((g.format = FRAMEBUF_MVLSB ∨ g.format = FRAMEBUF_RGB565 ∨
          g.format = FRAMEBUF_PL8) →
        g.stride = strideReq w sIn)) ∧
    (∀ s : Nat, 8 ∣ align8 s ∧ s ≤ align8 s ∧ align8 s < s + 8) ∧
    (∀ s : Nat, 4 ∣ align4 s ∧ s ≤ align4 s ∧ align4 s < s + 4) ∧
    (∀ s : Nat, 2 ∣ align2 s ∧ s ≤ align2 s ∧ align2 s < s + 2) := by
  have hnn : 0 ≤ fmt % 256 := Int.emod_nonneg fmt (by norm_num)
  have hlt : fmt % 256 < 256 := Int.emod_lt_of_pos fmt (by norm_num)
  refine ⟨?_, ?_, ?_, ?_, ?_⟩
  · unfold framebuf_make_new
    dsimp only
    split_ifs with h1 h2 h3 h4 h5
    · simp only [FRAMEBUF_MVLSB, FRAMEBUF_RGB565] at h1
      constructor
      · intro hc; exact hc.elim
      · intro hh; exfalso; apply hh; omega
    · simp only [FRAMEBUF_MHLSB, FRAMEBUF_MHMSB] at h2
      constructor
      · intro hc; exact hc.elim
      · intro hh; exfalso; apply hh; omega
    · simp only [FRAMEBUF_GS2_HMSB] at h3
      constructor
      · intro hc; exact hc.elim
      · intro hh; exfalso; apply hh; omega
    · simp only [FRAMEBUF_GS4_HMSB] at h4
      constructor
      · intro hc; exact hc.elim
      · intro hh; exfalso; apply hh; omega
    · simp only [FRAMEBUF_PL8] at h5
      constructor
      · intro hc; exact hc.elim
      · intro hh; exfalso; apply hh; omega
    · simp only [FRAMEBUF_MVLSB, FRAMEBUF_RGB565] at h1
      simp only [FRAMEBUF_MHLSB, FRAMEBUF_MHMSB] at h2
      simp only [FRAMEBUF_GS2_HMSB] at h3
      simp only [FRAMEBUF_GS4_HMSB] at h4
      simp only [FRAMEBUF_PL8] at h5
      constructor
      · intro hc; omega
      · intro hh; rfl
  · intro g hg
    unfold framebuf_make_new at hg
    dsimp only at hg
    split_ifs at hg with h1 h2 h3 h4 h5 <;>
      rw [Option.some_inj] at hg <;> subst hg <;>
      simp only [FRAMEBUF_MVLSB, FRAMEBUF_RGB565, FRAMEBUF_GS2_HMSB,
        FRAMEBUF_GS4_HMSB, FRAMEBUF_PL8, FRAMEBUF_MHLSB, FRAMEBUF_MHMSB,
        align8, align4, align2] at * <;>
      refine ⟨by first | rfl | trivial, ?_, ?_, ?_, ?_⟩ <;> intro hf <;>
      first
      | trivial
      | exact absurd hf (by omega)
      | exact ⟨by trivial, by omega⟩
  · intro s
    unfold align8
    refine ⟨⟨(s + 7) / 8, by omega⟩, by omega, by omega⟩
  · intro s
    unfold align4
    refine ⟨⟨(s + 3) / 4, by omega⟩, by omega, by omega⟩
  · intro s
    unfold align2
    refine ⟨⟨(s + 1) / 2, by omega⟩, by omega, by omega⟩

/-- C8 witness: constructing an 8-wide MONO_HLSB framebuffer with
requested stride 10 stores the aligned stride 16, a multiple of 8. -/
theorem C8_witness :
    framebuf_make_new 100 100 3 (some 10) = some ⟨100, 100, 16, 3⟩ ∧
    (16 : Nat) % 8 = 0 :=
  ⟨by decide,
    (((C8_make_new_contract 100 100 3 (some 10)).2.1 ⟨100, 100, 16, 3⟩
      (by decide)).2.1 (Or.inl rfl)).2⟩

/-- C8 counterexample: (1) the format argument 256 is not one of the seven
recognised constants, yet construction succeeds (the `uint8_t` store
truncates 256 to 0, MVLSB), refuting "raises ... exactly when the format
identifier is not one of the seven recognised constants"; (2) the
alignment switch groups MVLSB with RGB565, so an MVLSB framebuffer with
requested stride 10 keeps stride 10, refuting "rounds the stride up to a
multiple of 8 for the three monochrome formats". -/
theorem C8_counterexample :
    ((framebuf_make_new 8 8 256 none).isSome = true ∧
      ¬ ((256 : Int) = 0 ∨ (256 : Int) = 1 ∨ (256 : Int) = 2 ∨ (256 : Int) = 3 ∨
         (256 : Int) = 4 ∨ (256 : Int) = 5 ∨ (256 : Int) = 6)) ∧
    (framebuf_make_new 100 100 0 (some 10) = some ⟨100, 100, 10, 0⟩ ∧
      (10 : Nat) % 8 ≠ 0) := by decide

/-- C9 (confirmed): the default blit key `-1` converts to the 32-bit value
`0xFFFFFFFF`; every format's `getpixel` yields at most 16 significant bits
and therefore can never equal it, so a keyless blit writes every pixel of
the clipped overlap region unconditionally — no event in the blit loop is
skipped. -/
theorem C9_keyless_blit_copies_everything (fb source : FB) (srcbuf : List Nat)
    (x y : Int) (hwf : ∀ b ∈ srcbuf, b < 256) :
    keyU32 (-1) = 4294967295 ∧
    (∀ xx yy : Nat, getpixel source.format source.stride srcbuf xx yy ≤ 65535) ∧
    (∀ ev ∈ framebuf_blit fb source srcbuf x y (-1), ev.written = true) := by
  refine ⟨by decide, ?_, ?_⟩
  · intro xx yy
    exact getpixel_le source.format source.stride srcbuf xx yy hwf
  · intro ev hev
    unfold framebuf_blit at hev
    revert hev
    split
    · intro hev; simp at hev
    · intro hev
      simp only [List.mem_flatMap, List.mem_map, List.mem_range] at hev
      obtain ⟨j, hj, i, hi, rfl⟩ := hev
      simp only [decide_eq_true_eq, ne_eq]
      intro hc
      have := getpixel_le source.format source.stride srcbuf
        (0 ⊔ -x + (i : Int)).toNat (0 ⊔ -y + (j : Int)).toNat hwf
      rw [hc] at this
      have hk : keyU32 (-1) = 4294967295 := by decide
      omega

/-- C9 witness: a concrete keyless blit event bound. -/
theorem C9_witness : getpixel FRAMEBUF_PL8 2 [7, 8, 9, 200] 1 1 ≤ 65535 :=
  (C9_keyless_blit_copies_everything ⟨2, 2, 2, FRAMEBUF_PL8⟩ ⟨2, 2, 2, FRAMEBUF_PL8⟩
    [7, 8, 9, 200] 0 0 (by decide)).2.1 1 1

/-- C10 (confirmed): `framebuf_scroll` terminates for every
`|xstep| ≤ width` and `|ystep| ≤ height`: both `!=`-terminated loop
indices reach their end values (fuel `width + height` suffices and the
fueled model returns a result). -/
theorem C10_scroll_terminates (fb : FB) (xstep ystep : Int)
    (hx : xstep.natAbs ≤ fb.width) (hy : ystep.natAbs ≤ fb.height) :
    (framebuf_scroll fb xstep ystep (fb.width + fb.height)).isSome :=
  framebuf_scroll_term fb xstep ystep hx hy

/-- C10 witness: scroll by `(3, -2)` on an 8×8 framebuffer terminates. -/
theorem C10_witness :
    (framebuf_scroll ⟨8, 8, 8, 0⟩ 3 (-2) (8 + 8)).isSome :=
  C10_scroll_terminates ⟨8, 8, 8, 0⟩ 3 (-2) (by decide) (by decide)
